import Mathlib

/-! Session creation, routing and idle timers of `selenoid.go`.

A shallow embedding of `selenoid.go` (package `main` of selenoid): the
`POST /session` handler `create`, the resolution parser
`getScreenResolution`, the reverse-proxy director of `proxy` and the one-shot
timer `onTimeout`, followed by theorems about them.

Go strings are Lean strings. Calls on collaborators that live outside the file
(the admission queue, the environment manager, the HTTP client, the response
writer) are recorded, in program order, as a list of `Event`s.
-/

namespace Selenoid

/-! ## Pieces of the Go standard library used by the file -/

/-- Go's `strings.Split(s, "/")` on the characters of `s`: the segments between
slashes, always at least one. -/
def splitSlash : List Char → List (List Char)
  | [] => [[]]
  | c :: cs =>
    if c = '/' then [] :: splitSlash cs
    else
      match splitSlash cs with
      | [] => [[c]]
      | seg :: rest => (c :: seg) :: rest

/-- Go's `strings.Split(s, "/")`. -/
def stringsSplit (s : String) : List String :=
  (splitSlash s.data).map String.mk

/-- One path element of `path.Clean`. `out` is the stack of elements kept so
far, last one first. Empty elements and `.` are dropped; `..` removes the
element before it, is dropped at the root, and is kept at the start of a
path that is not rooted. -/
def cleanStep (rooted : Bool) (out : List (List Char)) (el : List Char) : List (List Char) :=
  if el = [] ∨ el = ['.'] then out
  else if el = ['.', '.'] then
    match out with
    | [] => if rooted then [] else [el]
    | top :: rest => if top = ['.', '.'] then el :: out else rest
  else el :: out

/-- Go's `path.Clean`: the shortest path equivalent to `p` by lexical
processing. -/
def pathClean (p : String) : String :=
  if p = "" then "."
  else
    let rooted : Bool := p.data.head? = some '/'
    let els := ((splitSlash p.data).foldl (cleanStep rooted) []).reverse
    let body := String.mk (List.intercalate ['/'] els)
    let r := (if rooted then "/" else "") ++ body
    if r = "" then "." else r

/-- Go's `path.Join(a, b)`: the non-empty elements joined by a slash, then
cleaned; the empty string when both are empty. -/
def pathJoin (a b : String) : String :=
  if a = "" ∧ b = "" then ""
  else if a = "" then pathClean b
  else pathClean (a ++ "/" ++ b)

/-! ## Regular expressions of `getScreenResolution` -/

section Regexp
open RegularExpression

/-- The class `[0-9]`. -/
def reDigit : RegularExpression Char :=
  char '0' + char '1' + char '2' + char '3' + char '4' +
    char '5' + char '6' + char '7' + char '8' + char '9'

/-- The pattern `[0-9]+`. -/
def reDigits : RegularExpression Char := reDigit * star reDigit

/-- The alternation `(8|16|24)`. -/
def reDepth : RegularExpression Char :=
  char '8' + char '1' * char '6' + char '2' * char '4'

/-- The expression `fullFormat`: the pattern `^[0-9]+x[0-9]+x(8|16|24)$`. -/
def fullFormat : RegularExpression Char :=
  reDigits * (char 'x' * (reDigits * (char 'x' * reDepth)))

/-- The expression `shortFormat`: the pattern `^[0-9]+x[0-9]+$`. -/
def shortFormat : RegularExpression Char :=
  reDigits * (char 'x' * reDigits)

end Regexp

/-- Go's `(*Regexp).MatchString` for a pattern anchored by `^` and `$` (no
multi-line flag): the whole input has to match. -/
def matchString (re : RegularExpression Char) (s : String) : Bool :=
  re.rmatch s.data

/-- The function `getScreenResolution(input)`, as the pair (result, error) it returns. -/
def getScreenResolution (input : String) : String × Option String :=
  if input = "" then ("1920x1080x24", none)
  else if matchString fullFormat input then (input, none)
  else if matchString shortFormat input then (input ++ "x24", none)
  else
    ("", some ("Malformed screenResolution capability: " ++ input ++
      ". Correct format is WxH (1920x1080) or WxHxD (1920x1080x24)."))

/-! ## The grammars of the specification -/

/-- A non-empty run of the decimal digits `0` to `9`. -/
def IsNumber (w : List Char) : Prop :=
  w ≠ [] ∧ ∀ c ∈ w, c ∈ ['0', '1', '2', '3', '4', '5', '6', '7', '8', '9']

/-- The grammar `WxHxD`: two numbers and a depth of 8, 16 or 24, separated
by the letter x. -/
def IsWxHxD (s : String) : Prop :=
  ∃ w h d, IsNumber w ∧ IsNumber h ∧ (d = ['8'] ∨ d = ['1', '6'] ∨ d = ['2', '4']) ∧
    s.data = w ++ 'x' :: (h ++ 'x' :: d)

/-- The grammar `WxH`: two numbers separated by the letter x. -/
def IsWxH (s : String) : Prop :=
  ∃ w h, IsNumber w ∧ IsNumber h ∧ s.data = w ++ 'x' :: h

/-! ## URLs and their string form -/

/-- The fields of Go's `url.URL` that the file sets or reads. -/
structure URL where
  scheme : String
  host : String
  path : String
deriving DecidableEq, Repr

/-- The UTF-8 bytes of a character. -/
def utf8Bytes (c : Char) : List Nat :=
  let n := c.toNat
  if n < 128 then [n]
  else if n < 2048 then [192 + n / 64, 128 + n % 64]
  else if n < 65536 then [224 + n / 4096, 128 + n / 64 % 64, 128 + n % 64]
  else [240 + n / 262144, 128 + n / 4096 % 64, 128 + n / 64 % 64, 128 + n % 64]

/-- A byte as `%XX`, with upper-case hexadecimal digits. -/
def percentByte (b : Nat) : List Char :=
  let hex := "0123456789ABCDEF".data
  ['%', hex.getD (b / 16) '0', hex.getD (b % 16) '0']

/-- Go's `shouldEscape(c, encodePath)`: letters, digits, the marks
`-_.~` and the reserved characters other than `?` stay as they are. -/
def shouldEscapePath (c : Char) : Bool :=
  !(c.isAlphanum || ['-', '_', '.', '~'].contains c ||
    ['$', '&', '+', ',', '/', ':', ';', '=', '@'].contains c)

/-- Go's `shouldEscape(c, encodeHost)`: letters, digits, the marks `-_.~`
and the sub-delimiters allowed in a host stay as they are. -/
def shouldEscapeHost (c : Char) : Bool :=
  !(c.isAlphanum || ['-', '_', '.', '~'].contains c ||
    ['!', '$', '&', Char.ofNat 39, '(', ')', '*', '+', ',', ';', '=', ':', '[', ']',
      '<', '>', '"'].contains c)

/-- Go's `escape`: every byte of a character that should be escaped becomes
`%XX`. -/
def escape (shouldEscape : Char → Bool) (s : String) : String :=
  String.mk (s.data.flatMap fun c =>
    if shouldEscape c then (utf8Bytes c).flatMap percentByte else [c])

/-- Go's `(*URL).EscapedPath` for a URL without `RawPath`. -/
def escapedPath (u : URL) : String :=
  if u.path = "*" then "*" else escape shouldEscapePath u.path

/-- Go's `(*URL).String` for a URL that has only a scheme, a host and a path. -/
def urlString (u : URL) : String :=
  let scheme := if u.scheme ≠ "" then u.scheme ++ ":" else ""
  let authority :=
    if u.scheme ≠ "" ∨ u.host ≠ "" then
      (if u.host ≠ "" ∨ u.path ≠ "" then "//" else "") ++
        (if u.host ≠ "" then escape shouldEscapeHost u.host else "")
    else ""
  let path := escapedPath u
  let slash := if path ≠ "" ∧ path.data.head? ≠ some '/' ∧ u.host ≠ "" then "/" else ""
  let dot :=
    if scheme ++ authority ++ slash = "" ∧ (splitSlash path.data).head?.any (·.contains ':')
    then "./" else ""
  scheme ++ authority ++ slash ++ dot ++ path

/-! ## Data of the handlers -/

/-- The struct `caps`: the desired capabilities of a creation request. -/
structure Caps where
  Name : String
  Version : String
  ScreenResolution : String
  VNC : Bool
deriving DecidableEq, Repr

/-- The struct `session.Session` stored in the registry. `Cancel` names the
environment's cancel function, `Timeout` the channel returned by
`onTimeout`. -/
structure Session where
  Quota : String
  Browser : String
  Version : String
  URL : URL
  Container : String
  VNC : String
  Screen : String
  Cancel : Nat
  Timeout : Nat
deriving DecidableEq, Repr

/-- What is written to the response body: upstream bytes relayed by the tee,
or the JSON document of `jsonError` with its message. -/
inductive Chunk where
  | raw (bytes : String)
  | errorEnvelope (message : String)
deriving DecidableEq, Repr

/-- A call on a collaborator, in the order the program makes it. -/
inductive Event where
  /-- The call `w.Header().Set(key, value)`. -/
  | headerSet (key value : String)
  /-- The call `w.Header().Add(key, value)`. -/
  | headerAdd (key value : String)
  /-- The call `w.WriteHeader(code)`. -/
  | writeHeader (code : Nat)
  /-- A write to the response body. -/
  | write (chunk : Chunk)
  /-- The call `queue.Create()`. -/
  | queueCreate
  /-- The call `queue.Drop()`. -/
  | queueDrop
  /-- The call `queue.Release()`. -/
  | queueRelease
  /-- A call of an environment's cancel function. -/
  | cancel (c : Nat)
  /-- The `i`-th `httpClient.Do`: a POST to `host` and `path`, while the
  upstream URL is `upstream`. -/
  | attempt (upstream : URL) (host path : String) (i : Nat)
  /-- The call `sessions.Put(id, record)`. -/
  | put (id : String) (record : Session)
  /-- The call `sessions.Remove(id)`. -/
  | remove (id : String)
  /-- The call `onTimeout(...)` that returns the channel `token`. -/
  | arm (token : Nat)
  /-- The statement `close(token)`. -/
  | close (token : Nat)
deriving DecidableEq, Repr

/-- The calls of `jsonError(w, msg, code)` on the response writer. -/
def jsonError (msg : String) (code : Nat) : List Event :=
  [.headerSet "Content-Type" "application/json", .writeHeader code, .write (.errorEnvelope msg)]

/-! ## What the client receives

`net/http` sends the status line and the header fields at the first
`WriteHeader`, or with status 200 at the first body write when `WriteHeader`
has not been called; a later `WriteHeader` is ignored, and so is a later change of
the header map. -/

/-- The response as the client sees it, with the header map of the writer. -/
structure ClientView where
  status : Option Nat
  headers : List (String × String)
  pending : List (String × String)
  body : List Chunk
deriving DecidableEq, Repr

/-- The effect of one call on the response writer. -/
def ClientView.step (v : ClientView) : Event → ClientView
  | .headerSet k x => { v with pending := v.pending.filter (fun p => p.1 ≠ k) ++ [(k, x)] }
  | .headerAdd k x => { v with pending := v.pending ++ [(k, x)] }
  | .writeHeader code =>
    match v.status with
    | some _ => v
    | none => { v with status := some code, headers := v.pending }
  | .write chunk =>
    match v.status with
    | some _ => { v with body := v.body ++ [chunk] }
    | none => { v with status := some 200, headers := v.pending, body := v.body ++ [chunk] }
  | _ => v

/-- The response the client sees after the calls `evs` of a handler. -/
def clientView (evs : List Event) : ClientView :=
  evs.foldl ClientView.step ⟨none, [], [], []⟩

/-! ## Timers -/

/-- The goroutine started by `onTimeout` and its channel: `session` is the id
the action `f` deletes, `closed` whether the channel has been closed,
`waiting` whether the goroutine is still blocked in its `select`, `fired` how
often `f` has run. The `select` is settled by the first of the two events,
the expiry and the close, that reaches the blocked goroutine. -/
structure Timer where
  session : String
  closed : Bool
  waiting : Bool
  fired : Nat
deriving DecidableEq, Repr

/-- The timer `onTimeout` starts: the channel open, the goroutine blocked in
`select`. -/
def Timer.armed (session : String) : Timer := ⟨session, false, true, 0⟩

/-- The statement `close(cancel)` on the timer's channel. Closing a closed
channel is a run-time panic (`none`); otherwise a goroutine that is still
blocked takes the `case <-cancel` branch and ends. -/
def Timer.signal (t : Timer) : Option Timer :=
  if t.closed then none else some { t with closed := true, waiting := false }

/-- The duration elapses: `time.After(t)` delivers, and a goroutine
that is still blocked runs `f()` and ends. -/
def Timer.expire (t : Timer) : Timer :=
  if t.waiting then { t with waiting := false, fired := t.fired + 1 } else t

/-- What can happen to a timer. -/
inductive TimerEvent where
  | signal
  | expire
deriving DecidableEq, Repr

/-- A timer after a sequence of events, `none` when a `close` panicked. -/
def Timer.run (t : Timer) : List TimerEvent → Option Timer
  | [] => some t
  | .signal :: rest =>
    match t.signal with
    | none => none
    | some t1 => t1.run rest
  | .expire :: rest => t.expire.run rest

/-! ## The state shared by the handlers -/

/-- The serial counter `num`, the registry `sessions` and the timers
started so far; a channel returned by `onTimeout` is the index of its timer. -/
structure World where
  num : Nat
  sessions : List (String × Session)
  timers : List Timer
deriving DecidableEq, Repr

/-- The state at start-up. -/
def World.init : World := ⟨0, [], []⟩

/-- The function `serial()`: the current value of the 64-bit counter `num`,
which is then incremented. -/
def serial (w : World) : Nat × World :=
  (w.num, { w with num := (w.num + 1) % 2 ^ 64 })

/-- Modelled from the spec: the registry operation `get(id)` of package
`session`, which is not part of the file; a keyed container. -/
def sessionsGet (m : List (String × Session)) (id : String) : Option Session :=
  (m.find? fun p => p.1 = id).map Prod.snd

/-- Modelled from the spec: the registry operation `remove(id)` of package
`session`, which is not part of the file. -/
def sessionsRemove (m : List (String × Session)) (id : String) : List (String × Session) :=
  m.filter fun p => p.1 ≠ id

/-- Modelled from the spec: the registry operation `put(id, record)` of package
`session`, which is not part of the file; a record put under an `id` takes the
place of the one stored under it. -/
def sessionsPut (m : List (String × Session)) (id : String) (record : Session) :
    List (String × Session) :=
  (id, record) :: sessionsRemove m id

/-- The function `onTimeout(t, f)`, where `f` deletes `session`: starts the
goroutine and returns its channel. -/
def onTimeout (timers : List Timer) (session : String) : List Timer × Nat :=
  (timers ++ [Timer.armed session], timers.length)

/-- The statement `close(token)` on a channel returned by `onTimeout`. -/
def closeToken (timers : List Timer) (token : Nat) : Option (List Timer) :=
  match timers[token]? with
  | none => none
  | some t =>
    match t.signal with
    | none => none
    | some t1 => some (timers.set token t1)

/-! ## Session creation -/

/-- The outcome of `json.NewDecoder(tee).Decode(&s)` on a response body: the
bytes the decoder read, which the tee copies to the client, and the fields
`ID` (JSON `sessionId`) and `Value.ID` (JSON `value.sessionId`) of `s`. -/
structure Decoded where
  read : String
  ID : String
  ValueID : String

/-- The library functions `create` calls on text it receives: `json.Unmarshal`
of the request body into the capabilities, `url.Parse`, and the JSON decoder
reading the upstream response body. The theorems hold for every choice
of them. -/
structure Lib where
  /-- The capabilities `json.Unmarshal` stores for a request body, or its error. -/
  unmarshalCaps : String → Except String Caps
  /-- The URL `url.Parse` returns, or its error. -/
  urlParse : String → Except String URL
  /-- The outcome of decoding a response body. -/
  decodeSession : String → Decoded

/-- The configuration read at start-up: `hostname`. -/
structure Config where
  hostname : String

/-- The result of `starter.StartWithCancel()` without its error. -/
structure Started where
  u : URL
  container : String
  vnc : String
  cancel : Nat

/-- The starter `manager.Find` returns, with the version it leaves behind its
`*string` argument. -/
structure Starter where
  version : String
  StartWithCancel : Except String Started

/-- The environment manager: `Find(name, version, resolution, vnc, id)`. -/
structure Manager where
  Find : String → String → String → Bool → Nat → Option Starter

/-- The value of `ctx.Err()` once `ctx.Done()` is ready. -/
inductive CtxErr where
  | DeadlineExceeded
  | Canceled
deriving DecidableEq, Repr

/-- The upstream response as far as `create` reads it: `StatusCode`, the
`Location` header (empty when absent) and the body. -/
structure Response where
  StatusCode : Nat
  Location : String
  Body : String
deriving DecidableEq, Repr

/-- The outcome of one `httpClient.Do` under its attempt context: whether the
context is done right after the call, and with which error, and what the
call returned. -/
structure Attempt where
  ctxErr : Option CtxErr
  result : Except String Response

/-- The incoming `POST /session`: the user of `r.BasicAuth()` when present,
the result of reading the body, `r.URL.Path`, and the outcomes of the
successive upstream attempts. -/
structure Request where
  basicAuth : Option String
  body : Except String String
  path : String
  attempts : List Attempt

/-- How the handshake loop of `create` ends: `create` returns from inside
the loop, or the loop breaks with the final response, the upstream URL and
the attempt counter. -/
inductive Loop where
  | returned (evs : List Event)
  | final (evs : List Event) (u : URL) (i : Nat) (resp : Response)
deriving DecidableEq, Repr

/-- The loop `for ; ; i++` of `create` (lines 157 to 199). `u` is the upstream
URL, `rPath` is `r.URL.Path`, `evs` the calls made so far; one iteration takes
the outcome of its attempt from the list, and `none` stands for a loop that is
still retrying when the outcomes run out. -/
def handshake (cancel : Nat) :
    URL → String → Nat → List Event → List Attempt → Option Loop
  | _, _, _, _, [] => none
  | u, rPath, i, evs, a :: rest =>
    let rHost := u.host
    let rPath := pathClean (u.path ++ rPath)
    let evs := evs ++ [Event.attempt u rHost rPath i]
    match a.ctxErr with
    | some .DeadlineExceeded => handshake cancel u rPath (i + 1) evs rest
    | some .Canceled => some (.returned (evs ++ [.queueDrop, .cancel cancel]))
    | none =>
      match a.result with
      | .error err =>
        some (.returned (evs ++ jsonError err 500 ++ [.queueDrop, .cancel cancel]))
      | .ok rsp =>
        if rsp.StatusCode = 404 ∧ u.path = "" then
          handshake cancel { u with path := "/wd/hub" } rPath (i + 1) evs rest
        else some (.final evs u i rsp)

/-- The lines of `create` between the loop and the test of `s.ID` (lines 200
to 228): the session id and the calls on the response writer. With a
`Location` header the id is the last segment of its path and the header is
rewritten; without one the body is relayed while it is decoded. -/
def sessionID (lib : Lib) (cfg : Config) (resp : Response) : String × List Event :=
  let location := resp.Location
  if location ≠ "" then
    match lib.urlParse location with
    | .ok l =>
      let fragments := stringsSplit l.path
      let sID := fragments.getLastD ""
      let lu : URL := ⟨"http", cfg.hostname, pathJoin "/wd/hub/session" sID⟩
      (sID, [.headerAdd "Location" (urlString lu), .writeHeader resp.StatusCode])
    | .error _ => ("", [])
  else
    let s := lib.decodeSession resp.Body
    (if s.ID = "" then s.ValueID else s.ID,
      [.writeHeader resp.StatusCode, .write (.raw s.read)])

/-- The record `create` puts into the registry. -/
def newSession (quota : String) (caps : Caps) (env : Started) (u : URL) (token : Nat) :
    Session :=
  { Quota := quota, Browser := caps.Name, Version := caps.Version, URL := u,
    Container := env.container, VNC := env.vnc, Screen := caps.ScreenResolution,
    Cancel := env.cancel, Timeout := token }

/-- The part of `create` after the loop (lines 229 to 249, with the id of
`sessionID`): the session is registered under the id taken from the final
response, or the creation fails when the id is empty. -/
def register (lib : Lib) (cfg : Config) (w : World) (quota : String) (caps : Caps)
    (env : Started) (u : URL) (resp : Response) (evs : List Event) : World × List Event :=
  let sID := (sessionID lib cfg resp).1
  let evs := evs ++ (sessionID lib cfg resp).2
  if sID = "" then
    (w, evs ++ jsonError "protocol error: could not determine session id" 502 ++
      [.queueDrop, .cancel env.cancel])
  else
    let token := (onTimeout w.timers sID).2
    let record := newSession quota caps env u token
    ({ w with sessions := sessionsPut w.sessions sID record,
              timers := (onTimeout w.timers sID).1 },
      evs ++ [.arm token, .put sID record, .queueCreate])

/-- The quota of a request: the user of `r.BasicAuth()`, or `unknown`. -/
def quotaOf (r : Request) : String :=
  match r.basicAuth with
  | some user => user
  | none => "unknown"

/-- The part of `create` before the loop (lines 111 to 156): the quota, the
body, the capabilities with the normalized resolution, the starter and the
started environment; or the calls of the error path that ends the handler. -/
def prepare (lib : Lib) (manager : Manager) (id : Nat) (r : Request) :
    Except (List Event) (String × Caps × Started) :=
  let quota := quotaOf r
  match r.body with
  | .error err => .error (jsonError err 400 ++ [.queueDrop])
  | .ok body =>
    match lib.unmarshalCaps body with
    | .error err => .error (jsonError err 400 ++ [.queueDrop])
    | .ok caps =>
      match getScreenResolution caps.ScreenResolution with
      | (_, some err) => .error (jsonError err 400 ++ [.queueDrop])
      | (resolution, none) =>
        let caps := { caps with ScreenResolution := resolution }
        match manager.Find caps.Name caps.Version caps.ScreenResolution caps.VNC id with
        | none =>
          .error (jsonError "Requested environment is not available" 400 ++ [.queueDrop])
        | some starter =>
          let caps := { caps with Version := starter.version }
          match starter.StartWithCancel with
          | .error err => .error (jsonError err 500 ++ [.queueDrop])
          | .ok env => .ok (quota, caps, env)

/-- The handler `create(w, r)`: the state it leaves and the calls it makes, or
`none` when it has not returned within the given attempts. -/
def create (lib : Lib) (cfg : Config) (manager : Manager) (w : World) (r : Request) :
    Option (World × List Event) :=
  let (id, w) := serial w
  match prepare lib manager id r with
  | .error evs => some (w, evs)
  | .ok (quota, caps, env) =>
    match handshake env.cancel env.u r.path 1 [] r.attempts with
    | none => none
    | some (.returned evs) => some (w, evs)
    | some (.final evs u _ resp) => some (register lib cfg w quota caps env u resp evs)

/-! ## Routing -/

/-- The request the director rewrites: `r.Method`, `r.URL.Host`, `r.URL.Path`. -/
structure ProxyRequest where
  method : String
  host : String
  path : String
deriving DecidableEq, Repr

/-- The lines of the `Director` of `proxy` under the lock of the session (lines
283 to 297), run in the state `w` in which the lock is acquired. `sess` is the
session the lookup returned, with the fields it has when the lock is acquired.
The result is the state the section leaves, the rewritten request, the function
left in `cancel` and the calls made; `none` is the run-time panic of the close
of a closed channel. The assignment to `sess.Timeout` changes the session
itself, so it shows in the registry where the registry holds this session. -/
def directorLocked (w : World) (r : ProxyRequest) (id : String) (sess : Session) :
    Option (World × ProxyRequest × Option Nat × List Event) :=
  let fragments := stringsSplit r.path
  let r1 : ProxyRequest :=
    { r with host := sess.URL.host, path := pathClean (sess.URL.path ++ r.path) }
  match closeToken w.timers sess.Timeout with
  | none => none
  | some timers =>
    if r.method = "DELETE" ∧ fragments.length = 3 then
      some ({ w with sessions := sessionsRemove w.sessions id, timers := timers }, r1,
        some sess.Cancel, [.close sess.Timeout, .remove id, .queueRelease])
    else
      let token := (onTimeout timers id).2
      let sess1 := { sess with Timeout := token }
      some ({ w with
          sessions := w.sessions.map fun p => if p = (id, sess) then (id, sess1) else p,
          timers := (onTimeout timers id).1 }, r1, none, [.close sess.Timeout, .arm token])

/-- Calls on the admission queue. -/
def Event.isQueueCall : Event → Bool
  | .queueCreate => true
  | .queueDrop => true
  | .queueRelease => true
  | _ => false

/-- Calls of a cancel function. -/
def Event.isCancel : Event → Bool
  | .cancel _ => true
  | _ => false

/-- Calls of `sessions.Put`. -/
def Event.isPut : Event → Bool
  | .put _ _ => true
  | _ => false

/-- Upstream attempts. -/
def Event.isAttempt : Event → Bool
  | .attempt _ _ _ _ => true
  | _ => false

/-- The upstream URL at an attempt. -/
def Event.upstream : Event → Option URL
  | .attempt u _ _ _ => some u
  | _ => none

/-- The upstream URLs of the successive attempts among the calls `evs`. -/
def upstreams (evs : List Event) : List URL :=
  evs.filterMap Event.upstream

/-- The calls of a loop result. -/
def Loop.evs : Loop → List Event
  | .returned evs => evs
  | .final evs _ _ _ => evs

/-- Calls on the response writer. -/
def Event.isWriter : Event → Bool
  | .headerSet _ _ => true
  | .headerAdd _ _ => true
  | .writeHeader _ => true
  | .write _ => true
  | _ => false

/-- The upstream URL after the path switch of the handshake loop. -/
def switched (u : URL) : URL := { u with path := "/wd/hub" }

/-- The number of places in a list of upstream URLs where the URL differs from the one
before it. -/
def changes : List URL → Nat
  | [] => 0
  | [_] => 0
  | a :: b :: rest => (if a = b then 0 else 1) + changes (b :: rest)

/-- An attempt that ends the loop whatever the upstream path is: the client
went away, the transport failed, or the upstream answered with a status other
than 404. -/
def Attempt.decides (a : Attempt) : Bool :=
  match a.ctxErr, a.result with
  | some .Canceled, _ => true
  | some .DeadlineExceeded, _ => false
  | none, .error _ => true
  | none, .ok rsp => rsp.StatusCode ≠ 404

/-! ## The session id in the words of the specification -/

/-- The session id of a final response as the specification describes it:
with a `Location` header, the last segment of the path of its URL, whatever the
body holds; without one, the `sessionId` of the body when it is not empty,
and the `value.sessionId` of the body otherwise. -/
def specSessionID (lib : Lib) (resp : Response) : Option String :=
  if resp.Location ≠ "" then
    match lib.urlParse resp.Location with
    | .ok l => (stringsSplit l.path).getLast?
    | .error _ => none
  else if (lib.decodeSession resp.Body).ID ≠ "" then some (lib.decodeSession resp.Body).ID
  else some (lib.decodeSession resp.Body).ValueID

/-! ## Concrete collaborators for the examples -/

/-- The request body `{"desiredCapabilities":{"browserName":"firefox"}}`. -/
def firefoxBody : String := "\x7b\"desiredCapabilities\":\x7b\"browserName\":\"firefox\"\x7d\x7d"

/-- A library for the examples. It agrees with Go's on the texts the examples
use: the request body `firefoxBody`; locations that are a rooted path of
letters, digits, dots, spaces and slashes without a leading double slash; and the
response bodies `{"sessionId":"abc"}`, `{"value":{"sessionId":"xyz"}}` and
`{}`. It reports an error, or decodes nothing, for every other text. -/
def exampleLib : Lib where
  unmarshalCaps body :=
    if body = firefoxBody then .ok ⟨"firefox", "", "", false⟩
    else .error "unexpected end of JSON input"
  urlParse s :=
    if s.data.head? = some '/' ∧ s.data.tail.head? ≠ some '/' ∧
        s.data.all (fun c => c.isAlphanum || c = '/' || c = '.' || c = ' ') then
      .ok ⟨"", "", s⟩
    else .error "parse error"
  decodeSession body :=
    if body = "\x7b\"sessionId\":\"abc\"\x7d" then ⟨body, "abc", ""⟩
    else if body = "\x7b\"value\":\x7b\"sessionId\":\"xyz\"\x7d\x7d" then ⟨body, "", "xyz"⟩
    else if body = "\x7b\x7d" then ⟨body, "", ""⟩
    else ⟨"", "", ""⟩

/-- The configuration of the examples. -/
def exampleCfg : Config := ⟨"selenoid.example.com:4444"⟩

/-- A manager that knows one browser, `firefox`, and starts it at the given
upstream URL with the cancel function 7. -/
def exampleManager (u : URL) : Manager where
  Find name _ _ _ _ :=
    if name = "firefox" then some ⟨"57.0", .ok ⟨u, "container-1", "", 7⟩⟩ else none

/-- An attempt that runs into the attempt timeout. -/
def attemptTimeout : Attempt := ⟨some .DeadlineExceeded, .error "context deadline exceeded"⟩

/-- An attempt during which the client went away. -/
def attemptCanceled : Attempt := ⟨some .Canceled, .error "context canceled"⟩

/-- An attempt answered by the upstream. -/
def attemptResponse (resp : Response) : Attempt := ⟨none, .ok resp⟩

/-- A creation request with the body `firefoxBody` and the given attempts. -/
def exampleRequest (attempts : List Attempt) : Request :=
  ⟨none, .ok firefoxBody, "/session", attempts⟩

/-- The upstream of the examples that serves the protocol under `/wd/hub`. -/
def hubUpstream : URL := ⟨"http", "up:4444", "/wd/hub"⟩

/-- The upstream of the examples with an empty path. -/
def rootUpstream : URL := ⟨"http", "up:4444", ""⟩

/-- The record the examples register. -/
def exampleSession (u : URL) : Session :=
  { Quota := "unknown", Browser := "firefox", Version := "57.0", URL := u,
    Container := "container-1", VNC := "", Screen := "1920x1080x24", Cancel := 7, Timeout := 0 }

/-- The response body `{"sessionId":"abc"}`. -/
def abcBody : String := "\x7b\"sessionId\":\"abc\"\x7d"

/-- The request of the first example: a timed-out attempt, then a response with
the session id `abc` in its body. -/
def createdRequest : Request :=
  exampleRequest [attemptTimeout, attemptResponse ⟨200, "", abcBody⟩]

/-- The state after the first example. -/
def createdWorld : World := ⟨1, [("abc", exampleSession hubUpstream)], [Timer.armed "abc"]⟩

/-- The calls of the first example. -/
def createdCalls : List Event :=
  [.attempt hubUpstream "up:4444" "/wd/hub/session" 1,
    .attempt hubUpstream "up:4444" "/wd/hub/wd/hub/session" 2,
    .writeHeader 200, .write (.raw abcBody),
    .arm 0, .put "abc" (exampleSession hubUpstream), .queueCreate]

/-- The request of the second example: a timed-out attempt, then the
client goes away. -/
def canceledRequest : Request := exampleRequest [attemptTimeout, attemptCanceled]

/-- The calls of the second example. -/
def canceledCalls : List Event :=
  [.attempt hubUpstream "up:4444" "/wd/hub/session" 1,
    .attempt hubUpstream "up:4444" "/wd/hub/wd/hub/session" 2,
    .queueDrop, .cancel 7]

/-- The request of the third example: two timed-out attempts, then a response
with the session id `abc` in its body. -/
def retriedRequest : Request :=
  exampleRequest [attemptTimeout, attemptTimeout, attemptResponse ⟨200, "", abcBody⟩]

/-- The calls of the third example. -/
def retriedCalls : List Event :=
  [.attempt hubUpstream "up:4444" "/wd/hub/session" 1,
    .attempt hubUpstream "up:4444" "/wd/hub/wd/hub/session" 2,
    .attempt hubUpstream "up:4444" "/wd/hub/wd/hub/wd/hub/session" 3,
    .writeHeader 200, .write (.raw abcBody),
    .arm 0, .put "abc" (exampleSession hubUpstream), .queueCreate]

/-- The request of the fourth example: the upstream answers 200 with the
body `{}` and no `Location` header. -/
def noIdRequest : Request := exampleRequest [attemptResponse ⟨200, "", "\x7b\x7d"⟩]

/-- The calls of the fourth example. -/
def noIdCalls : List Event :=
  [.attempt hubUpstream "up:4444" "/wd/hub/session" 1,
    .writeHeader 200, .write (.raw "\x7b\x7d"),
    .headerSet "Content-Type" "application/json", .writeHeader 502,
    .write (.errorEnvelope "protocol error: could not determine session id"),
    .queueDrop, .cancel 7]

/-- The request of the fifth example: the upstream answers 303 with a
`Location` header, and with a body that holds another session id. -/
def locationRequest : Request :=
  exampleRequest [attemptResponse ⟨303, "/session/loc1", abcBody⟩]

/-- The record of the fifth example. -/
def locationSession : Session := exampleSession rootUpstream

/-- The calls of the fifth example. -/
def locationCalls : List Event :=
  [.attempt rootUpstream "up:4444" "/session" 1,
    .headerAdd "Location" "http://selenoid.example.com:4444/wd/hub/session/loc1",
    .writeHeader 303, .arm 0, .put "loc1" locationSession, .queueCreate]

/-- The request of the sixth example: the `Location` header of the final
response ends in the segment `..`. -/
def dotDotRequest : Request := exampleRequest [attemptResponse ⟨303, "/x/y/..", ""⟩]

/-- The calls of the sixth example. -/
def dotDotCalls : List Event :=
  [.attempt rootUpstream "up:4444" "/session" 1,
    .headerAdd "Location" "http://selenoid.example.com:4444/wd/hub",
    .writeHeader 303, .arm 0, .put ".." locationSession, .queueCreate]

/-- The request of the seventh example: the last segment of the `Location`
header of the final response holds a space. -/
def spaceRequest : Request := exampleRequest [attemptResponse ⟨303, "/x/y/a b", ""⟩]

/-- The calls of the seventh example. -/
def spaceCalls : List Event :=
  [.attempt rootUpstream "up:4444" "/session" 1,
    .headerAdd "Location" "http://selenoid.example.com:4444/wd/hub/session/a%20b",
    .writeHeader 303, .arm 0, .put "a b" locationSession, .queueCreate]

/-- The response body `{"value":{"sessionId":"xyz"}}`. -/
def xyzBody : String := "\x7b\"value\":\x7b\"sessionId\":\"xyz\"\x7d\x7d"

/-- The request of the eighth example: the upstream answers 404, and after
the path switch 200 with the session id `xyz` under `value`. -/
def switchRequest : Request :=
  exampleRequest [attemptResponse ⟨404, "", ""⟩, attemptResponse ⟨200, "", xyzBody⟩]

/-- The calls of the eighth example. -/
def switchCalls : List Event :=
  [.attempt rootUpstream "up:4444" "/session" 1,
    .attempt hubUpstream "up:4444" "/wd/hub/session" 2,
    .writeHeader 200, .write (.raw xyzBody),
    .arm 0, .put "xyz" (exampleSession hubUpstream), .queueCreate]

/-- The request of the ninth example: the upstream answers 303 with a
`Location` header whose path ends in an empty segment. -/
def emptySegmentRequest : Request := exampleRequest [attemptResponse ⟨303, "/session/", ""⟩]

/-- The calls of the ninth example. -/
def emptySegmentCalls : List Event :=
  [.attempt hubUpstream "up:4444" "/wd/hub/session" 1,
    .headerAdd "Location" "http://selenoid.example.com:4444/wd/hub/session",
    .writeHeader 303,
    .headerSet "Content-Type" "application/json", .writeHeader 502,
    .write (.errorEnvelope "protocol error: could not determine session id"),
    .queueDrop, .cancel 7]

/-! ## Theorems: `getScreenResolution` -/

section ResolutionProofs
open RegularExpression

theorem reDigit_rmatch_iff (x : List Char) :
    reDigit.rmatch x = true ↔
      ∃ c, c ∈ ['0', '1', '2', '3', '4', '5', '6', '7', '8', '9'] ∧ x = [c] := by
  simp only [reDigit, add_rmatch_iff, char_rmatch_iff]
  constructor
  · intro h
    rcases h with (((((((((h | h) | h) | h) | h) | h) | h) | h) | h) | h) <;>
      exact ⟨_, by simp, h⟩
  · rintro ⟨c, hc, rfl⟩
    simp only [List.mem_cons, List.mem_singleton, List.not_mem_nil, or_false] at hc
    rcases hc with (h | h | h | h | h | h | h | h | h | h) <;> subst h <;> simp

theorem star_reDigit_rmatch_iff (x : List Char) :
    (star reDigit).rmatch x = true ↔
      ∀ c ∈ x, c ∈ ['0', '1', '2', '3', '4', '5', '6', '7', '8', '9'] := by
  rw [star_rmatch_iff]
  constructor
  · rintro ⟨S, rfl, hS⟩ c hc
    rw [List.mem_flatten] at hc
    obtain ⟨t, ht, hct⟩ := hc
    obtain ⟨d, hd, rfl⟩ := (reDigit_rmatch_iff t).1 (hS t ht).2
    rw [List.mem_singleton] at hct
    exact hct ▸ hd
  · intro h
    refine ⟨x.map (fun c => [c]), ?_, ?_⟩
    · induction x with
      | nil => rfl
      | cons a l ih =>
        have := ih (fun c hc => h c (List.mem_cons_of_mem _ hc))
        simp only [List.map_cons, List.flatten_cons, List.singleton_append]
        rw [← this]
    · intro t ht
      rw [List.mem_map] at ht
      obtain ⟨c, hc, rfl⟩ := ht
      exact ⟨by simp, (reDigit_rmatch_iff _).2 ⟨c, h c hc, rfl⟩⟩

theorem reDigits_rmatch_iff (x : List Char) :
    reDigits.rmatch x = true ↔ IsNumber x := by
  unfold reDigits IsNumber
  rw [mul_rmatch_iff]
  constructor
  · rintro ⟨t, u, rfl, ht, hu⟩
    obtain ⟨c, hc, rfl⟩ := (reDigit_rmatch_iff t).1 ht
    refine ⟨by simp, ?_⟩
    intro d hd
    rw [List.mem_append, List.mem_singleton] at hd
    rcases hd with rfl | hd
    · exact hc
    · exact (star_reDigit_rmatch_iff u).1 hu d hd
  · rintro ⟨hne, hall⟩
    cases x with
    | nil => exact absurd rfl hne
    | cons a l =>
      refine ⟨[a], l, rfl, (reDigit_rmatch_iff _).2 ⟨a, hall a (List.mem_cons_self _ _), rfl⟩, ?_⟩
      exact (star_reDigit_rmatch_iff l).2 (fun c hc => hall c (List.mem_cons_of_mem _ hc))

theorem reDepth_rmatch_iff (d : List Char) :
    reDepth.rmatch d = true ↔ (d = ['8'] ∨ d = ['1', '6'] ∨ d = ['2', '4']) := by
  simp only [reDepth, add_rmatch_iff, mul_rmatch_iff, char_rmatch_iff]
  constructor
  · rintro ((h | ⟨t, u, rfl, rfl, rfl⟩) | ⟨t, u, rfl, rfl, rfl⟩)
    · exact Or.inl h
    · exact Or.inr (Or.inl rfl)
    · exact Or.inr (Or.inr rfl)
  · rintro (h | h | h)
    · exact Or.inl (Or.inl h)
    · exact Or.inl (Or.inr ⟨_, _, h, rfl, rfl⟩)
    · exact Or.inr ⟨_, _, h, rfl, rfl⟩

theorem matchString_fullFormat_iff (s : String) :
    matchString fullFormat s = true ↔ IsWxHxD s := by
  unfold matchString fullFormat IsWxHxD
  simp only [mul_rmatch_iff, char_rmatch_iff, reDigits_rmatch_iff, reDepth_rmatch_iff]
  constructor
  · rintro ⟨w, r1, hs, hw, x1, r2, rfl, rfl, h, r3, rfl, hh, x2, d, rfl, rfl, hd⟩
    exact ⟨w, h, d, hw, hh, hd, by simpa using hs⟩
  · rintro ⟨w, h, d, hw, hh, hd, hs⟩
    exact ⟨w, _, hs, hw, ['x'], _, rfl, rfl, h, _, rfl, hh, ['x'], d, rfl, rfl, hd⟩

theorem matchString_shortFormat_iff (s : String) :
    matchString shortFormat s = true ↔ IsWxH s := by
  unfold matchString shortFormat IsWxH
  simp only [mul_rmatch_iff, char_rmatch_iff, reDigits_rmatch_iff]
  constructor
  · rintro ⟨w, r1, hs, hw, x1, h, rfl, rfl, hh⟩
    exact ⟨w, h, hw, hh, by simpa using hs⟩
  · rintro ⟨w, h, hw, hh, hs⟩
    exact ⟨w, _, hs, hw, ['x'], h, rfl, rfl, hh⟩

end ResolutionProofs

section ResolutionSpec

theorem isNumber_count_x {w : List Char} (hw : IsNumber w) : w.count 'x' = 0 := by
  rw [List.count_eq_zero]
  intro hx
  have := hw.2 _ hx
  revert this
  decide

theorem isWxH_not_isWxHxD {s : String} (h : IsWxH s) : ¬ IsWxHxD s := by
  obtain ⟨w, h1, hw, hh, hs⟩ := h
  rintro ⟨w2, h2, d, hw2, hh2, hd, hs2⟩
  have c1 : s.data.count 'x' = 1 := by
    rw [hs]
    simp [List.count_append, List.count_cons, isNumber_count_x hw, isNumber_count_x hh]
  have c2 : s.data.count 'x' = 2 := by
    rw [hs2]
    rcases hd with rfl | rfl | rfl <;>
      simp [List.count_append, List.count_cons, isNumber_count_x hw2, isNumber_count_x hh2]
  omega

theorem isWxHxD_ne_empty {s : String} (h : IsWxHxD s) : s ≠ "" := by
  obtain ⟨w, h1, d, hw, -, -, hs⟩ := h
  rintro rfl
  cases w with
  | nil => exact hw.1 rfl
  | cons a l => simp at hs

theorem isWxH_ne_empty {s : String} (h : IsWxH s) : s ≠ "" := by
  obtain ⟨w, h1, hw, -, hs⟩ := h
  rintro rfl
  cases w with
  | nil => exact hw.1 rfl
  | cons a l => simp at hs

/-- C8: `getScreenResolution` returns the default `1920x1080x24` for the empty
input, the input itself when it has the form WxHxD with a depth of 8, 16 or
24, the input followed by `x24` when it has the form WxH, and otherwise an
empty result with an error whose message contains the input and the two
accepted formats; it fails exactly on the non-empty inputs of neither form. -/
theorem getScreenResolution_spec (s : String) :
    (s = "" → getScreenResolution s = ("1920x1080x24", none)) ∧
    (IsWxHxD s → getScreenResolution s = (s, none)) ∧
    (IsWxH s → getScreenResolution s = (s ++ "x24", none)) ∧
    ((s ≠ "" ∧ ¬ IsWxHxD s ∧ ¬ IsWxH s) →
      ∃ msg, getScreenResolution s = ("", some msg) ∧
        s.data <:+: msg.data ∧ "WxH".data <:+: msg.data ∧ "WxHxD".data <:+: msg.data) ∧
    ((getScreenResolution s).2 ≠ none ↔ (s ≠ "" ∧ ¬ IsWxHxD s ∧ ¬ IsWxH s)) := by
  have hfull := matchString_fullFormat_iff s
  have hshort := matchString_shortFormat_iff s
  refine ⟨?_, ?_, ?_, ?_, ?_⟩
  · intro h
    simp [getScreenResolution, h]
  · intro h
    simp [getScreenResolution, isWxHxD_ne_empty h, hfull.2 h]
  · intro h
    have hnf : ¬ matchString fullFormat s = true := fun hf => isWxH_not_isWxHxD h (hfull.1 hf)
    simp [getScreenResolution, isWxH_ne_empty h, hnf, hshort.2 h]
  · rintro ⟨hne, hnf, hns⟩
    have hnf2 : ¬ matchString fullFormat s = true := fun hf => hnf (hfull.1 hf)
    have hns2 : ¬ matchString shortFormat s = true := fun hf => hns (hshort.1 hf)
    refine ⟨_, by simp only [getScreenResolution, hne, hnf2, hns2, if_false]; rfl, ?_, ?_, ?_⟩
    · simp only [String.data_append]
      exact List.infix_append _ _ _
    · simp only [String.data_append]
      refine List.IsInfix.trans ?_ (List.suffix_append _ _).isInfix
      exact ⟨". Correct format is ".data, " (1920x1080) or WxHxD (1920x1080x24).".data, rfl⟩
    · simp only [String.data_append]
      refine List.IsInfix.trans ?_ (List.suffix_append _ _).isInfix
      exact ⟨". Correct format is WxH (1920x1080) or ".data, " (1920x1080x24).".data, rfl⟩
  · constructor
    · intro herr
      by_cases hne : s = ""
      · simp [getScreenResolution, hne] at herr
      · by_cases hf : matchString fullFormat s = true
        · simp [getScreenResolution, hne, hf] at herr
        · by_cases hs : matchString shortFormat s = true
          · simp [getScreenResolution, hne, hf, hs] at herr
          · exact ⟨hne, fun h => hf (hfull.2 h), fun h => hs (hshort.2 h)⟩
    · rintro ⟨hne, hnf, hns⟩
      have hnf2 : ¬ matchString fullFormat s = true := fun hf => hnf (hfull.1 hf)
      have hns2 : ¬ matchString shortFormat s = true := fun hf => hns (hshort.1 hf)
      simp [getScreenResolution, hne, hnf2, hns2]

/-- C8, at concrete inputs: the four cases of `getScreenResolution`. -/
theorem getScreenResolution_spec_examples :
    getScreenResolution "" = ("1920x1080x24", none) ∧
    getScreenResolution "1024x768x16" = ("1024x768x16", none) ∧
    getScreenResolution "1024x768" = ("1024x768x24", none) ∧
    getScreenResolution "1024x768x32" = ("", some
      "Malformed screenResolution capability: 1024x768x32. Correct format is WxH (1920x1080) or WxHxD (1920x1080x24).") ∧
    ((getScreenResolution "1024x768x32").2 ≠ none ↔
      ("1024x768x32" ≠ "" ∧ ¬ IsWxHxD "1024x768x32" ∧ ¬ IsWxH "1024x768x32")) :=
  ⟨by decide, by decide, by decide, by decide, (getScreenResolution_spec "1024x768x32").2.2.2.2⟩

end ResolutionSpec

/-! ## Theorems: the handshake loop -/

section LoopProofs

/-- The shape of a finished handshake loop: the calls made are the attempts,
followed on the paths that return from the loop by the error response if
any, `queue.Drop` and `cancel`; the upstream URL changes at most by the
switch of an empty path to `/wd/hub`. -/
theorem handshake_shape (cancel : Nat) :
    ∀ (atts : List Attempt) (u : URL) (rPath : String) (i : Nat) (evs : List Event) (res : Loop),
      handshake cancel u rPath i evs atts = some res →
      ∃ tail : List Event, (∀ e ∈ tail, e.isAttempt = true) ∧
        ((∃ u1 i1 resp, res = .final (evs ++ tail) u1 i1 resp ∧
            (u1 = u ∨ (u.path = "" ∧ u1 = { u with path := "/wd/hub" }))) ∨
          res = .returned (evs ++ tail ++ [.queueDrop, .cancel cancel]) ∨
          ∃ err, res = .returned (evs ++ tail ++ jsonError err 500 ++
            [.queueDrop, .cancel cancel])) := by
  intro atts
  induction atts with
  | nil => intro u rPath i evs res h; simp [handshake] at h
  | cons a rest ih =>
    intro u rPath i evs res h
    simp only [handshake] at h
    cases hc : a.ctxErr with
    | some c =>
      cases c with
      | DeadlineExceeded =>
        simp only [hc] at h
        obtain ⟨tail, ht, hres⟩ := ih _ _ _ _ _ h
        refine ⟨Event.attempt u u.host (pathClean (u.path ++ rPath)) i :: tail, ?_, ?_⟩
        · intro e he
          rcases List.mem_cons.1 he with rfl | he
          · rfl
          · exact ht e he
        · simpa [List.append_assoc] using hres
      | Canceled =>
        simp only [hc, Option.some.injEq] at h
        refine ⟨[Event.attempt u u.host (pathClean (u.path ++ rPath)) i], ?_, ?_⟩
        · intro e he
          rw [List.mem_singleton] at he
          subst he
          rfl
        · exact Or.inr (Or.inl h.symm)
    | none =>
      simp only [hc] at h
      cases hr : a.result with
      | error err =>
        simp only [hr, Option.some.injEq] at h
        refine ⟨[Event.attempt u u.host (pathClean (u.path ++ rPath)) i], ?_, ?_⟩
        · intro e he
          rw [List.mem_singleton] at he
          subst he
          rfl
        · exact Or.inr (Or.inr ⟨err, h.symm⟩)
      | ok rsp =>
        simp only [hr] at h
        by_cases hsw : rsp.StatusCode = 404 ∧ u.path = ""
        · rw [if_pos hsw] at h
          obtain ⟨tail, ht, hres⟩ := ih _ _ _ _ _ h
          refine ⟨Event.attempt u u.host (pathClean (u.path ++ rPath)) i :: tail, ?_, ?_⟩
          · intro e he
            rcases List.mem_cons.1 he with rfl | he
            · rfl
            · exact ht e he
          · rcases hres with ⟨u1, i1, resp, hfin, hu⟩ | hres | hres
            · refine Or.inl ⟨u1, i1, resp, by simpa [List.append_assoc] using hfin, ?_⟩
              rcases hu with hu | ⟨-, hu⟩
              · exact Or.inr ⟨hsw.2, hu⟩
              · exact Or.inr ⟨hsw.2, hu⟩
            · exact Or.inr (Or.inl (by simpa [List.append_assoc] using hres))
            · obtain ⟨err, hres⟩ := hres
              exact Or.inr (Or.inr ⟨err, by simpa [List.append_assoc] using hres⟩)
        · rw [if_neg hsw] at h
          simp only [Option.some.injEq] at h
          refine ⟨[Event.attempt u u.host (pathClean (u.path ++ rPath)) i], ?_, ?_⟩
          · intro e he
            rw [List.mem_singleton] at he
            subst he
            rfl
          · exact Or.inl ⟨u, i, rsp, h.symm, Or.inl rfl⟩

/-- The calls of a loop that breaks with a final response are its attempts. -/
theorem handshake_final_attempts {cancel : Nat} {u u1 : URL} {rPath : String} {i i1 : Nat}
    {atts : List Attempt} {evs0 : List Event} {resp : Response}
    (h : handshake cancel u rPath i [] atts = some (.final evs0 u1 i1 resp)) :
    ∀ e ∈ evs0, e.isAttempt = true := by
  obtain ⟨tail, ht, hres⟩ := handshake_shape _ _ _ _ _ _ _ h
  rcases hres with ⟨u2, i2, resp2, h1, -⟩ | h1 | ⟨err, h1⟩
  · rw [(Loop.final.inj h1).1]
    simpa using ht
  · cases h1
  · cases h1

end LoopProofs

/-! ## Theorems: the paths of `create` -/

section CreateProofs

theorem prepare_error {lib : Lib} {manager : Manager} {id : Nat} {r : Request}
    {evs : List Event} (h : prepare lib manager id r = .error evs) :
    ∃ err code, evs = jsonError err code ++ [.queueDrop] := by
  unfold prepare at h
  dsimp only at h
  split at h
  · exact ⟨_, _, (Except.error.inj h).symm⟩
  · split at h
    · exact ⟨_, _, (Except.error.inj h).symm⟩
    · split at h
      · exact ⟨_, _, (Except.error.inj h).symm⟩
      · split at h
        · exact ⟨_, _, (Except.error.inj h).symm⟩
        · split at h
          · exact ⟨_, _, (Except.error.inj h).symm⟩
          · cases h

theorem sessionID_isWriter (lib : Lib) (cfg : Config) (resp : Response) :
    ∀ e ∈ (sessionID lib cfg resp).2, e.isWriter = true := by
  unfold sessionID
  dsimp only
  split
  · split
    · intro e he
      simp only [List.mem_cons, List.mem_singleton, List.not_mem_nil, or_false] at he
      rcases he with rfl | rfl <;> rfl
    · intro e he
      cases he
  · intro e he
    simp only [List.mem_cons, List.mem_singleton, List.not_mem_nil, or_false] at he
    rcases he with rfl | rfl <;> rfl

theorem register_of_empty {lib : Lib} {cfg : Config} {resp : Response}
    (h : (sessionID lib cfg resp).1 = "") (w : World) (quota : String) (caps : Caps)
    (env : Started) (u : URL) (evs : List Event) :
    register lib cfg w quota caps env u resp evs =
      (w, evs ++ (sessionID lib cfg resp).2 ++
        jsonError "protocol error: could not determine session id" 502 ++
        [.queueDrop, .cancel env.cancel]) := by
  unfold register
  simp only [h, if_true]

theorem register_of_id {lib : Lib} {cfg : Config} {resp : Response}
    (h : (sessionID lib cfg resp).1 ≠ "") (w : World) (quota : String) (caps : Caps)
    (env : Started) (u : URL) (evs : List Event) :
    register lib cfg w quota caps env u resp evs =
      ({ w with
          sessions := sessionsPut w.sessions (sessionID lib cfg resp).1
            (newSession quota caps env u w.timers.length),
          timers := w.timers ++ [Timer.armed (sessionID lib cfg resp).1] },
        evs ++ (sessionID lib cfg resp).2 ++
          [.arm w.timers.length,
            .put (sessionID lib cfg resp).1 (newSession quota caps env u w.timers.length),
            .queueCreate]) := by
  unfold register
  simp only [h, if_false, onTimeout]

theorem sessionsGet_put (m : List (String × Session)) (id : String) (record : Session) :
    sessionsGet (sessionsPut m id record) id = some record := by
  simp [sessionsGet, sessionsPut]

end CreateProofs

section QueueAndCancel

/-- Every way `create` can return: on an error before the loop; from inside
the loop after a client cancel or a transport error; or after the loop, through
`register` on the final response. -/
theorem create_cases {lib : Lib} {cfg : Config} {manager : Manager} {w w1 : World}
    {r : Request} {evs : List Event} (h : create lib cfg manager w r = some (w1, evs)) :
    (∃ err code, prepare lib manager w.num r = .error evs ∧
        evs = jsonError err code ++ [.queueDrop] ∧ w1 = (serial w).2) ∨
    (∃ quota caps env tail, prepare lib manager w.num r = .ok (quota, caps, env) ∧
      (∀ e ∈ tail, e.isAttempt = true) ∧
      ((w1 = (serial w).2 ∧ evs = tail ++ [.queueDrop, .cancel env.cancel]) ∨
        (∃ err, w1 = (serial w).2 ∧
          evs = tail ++ jsonError err 500 ++ [.queueDrop, .cancel env.cancel]) ∨
        (∃ u i resp,
          handshake env.cancel env.u r.path 1 [] r.attempts = some (.final tail u i resp) ∧
          (u = env.u ∨ (env.u.path = "" ∧ u = { env.u with path := "/wd/hub" })) ∧
          (w1, evs) = register lib cfg (serial w).2 quota caps env u resp tail))) := by
  unfold create at h
  simp only [serial] at h ⊢
  cases hp : prepare lib manager w.num r with
  | error evs0 =>
    simp only [hp, Option.some.injEq, Prod.mk.injEq] at h
    obtain ⟨err, code, he⟩ := prepare_error hp
    exact Or.inl ⟨err, code, by rw [← h.2], by rw [← h.2, he], h.1.symm⟩
  | ok p =>
    obtain ⟨quota, caps, env⟩ := p
    simp only [hp] at h
    right
    cases hh : handshake env.cancel env.u r.path 1 [] r.attempts with
    | none => simp [hh] at h
    | some res =>
      obtain ⟨tail, ht, hres⟩ := handshake_shape _ _ _ _ _ _ _ hh
      simp only [List.nil_append] at hres
      refine ⟨quota, caps, env, tail, rfl, ht, ?_⟩
      rcases hres with ⟨u1, i1, resp, rfl, hu⟩ | rfl | ⟨err, rfl⟩
      · simp only [hh, Option.some.injEq] at h
        exact Or.inr (Or.inr ⟨u1, i1, resp, hh, hu, h.symm⟩)
      · simp only [hh, Option.some.injEq, Prod.mk.injEq] at h
        exact Or.inl ⟨h.1.symm, h.2.symm⟩
      · simp only [hh, Option.some.injEq, Prod.mk.injEq] at h
        exact Or.inr (Or.inl ⟨err, h.1.symm, h.2.symm⟩)

theorem filter_attempts_nil {p : Event → Bool}
    (hp : ∀ e : Event, e.isAttempt = true → p e = false) {l : List Event}
    (h : ∀ e ∈ l, e.isAttempt = true) : l.filter p = [] := by
  rw [List.filter_eq_nil_iff]
  intro e he
  simp [hp e (h e he)]

theorem filter_writer_nil {p : Event → Bool}
    (hp : ∀ e : Event, e.isWriter = true → p e = false) {l : List Event}
    (h : ∀ e ∈ l, e.isWriter = true) : l.filter p = [] := by
  rw [List.filter_eq_nil_iff]
  intro e he
  simp [hp e (h e he)]

theorem attempt_not_queue (e : Event) (h : e.isAttempt = true) : e.isQueueCall = false := by
  cases e <;> simp_all [Event.isAttempt, Event.isQueueCall]

theorem attempt_not_cancel (e : Event) (h : e.isAttempt = true) : e.isCancel = false := by
  cases e <;> simp_all [Event.isAttempt, Event.isCancel]

theorem attempt_not_put (e : Event) (h : e.isAttempt = true) : e.isPut = false := by
  cases e <;> simp_all [Event.isAttempt, Event.isPut]

theorem attempt_not_writer (e : Event) (h : e.isAttempt = true) : e.isWriter = false := by
  cases e <;> simp_all [Event.isAttempt, Event.isWriter]

theorem writer_not_queue (e : Event) (h : e.isWriter = true) : e.isQueueCall = false := by
  cases e <;> simp_all [Event.isWriter, Event.isQueueCall]

theorem writer_not_cancel (e : Event) (h : e.isWriter = true) : e.isCancel = false := by
  cases e <;> simp_all [Event.isWriter, Event.isCancel]

theorem writer_not_put (e : Event) (h : e.isWriter = true) : e.isPut = false := by
  cases e <;> simp_all [Event.isWriter, Event.isPut]

/-- The calls of `create` on a path that returns, reduced to the queue, the
registry and the cancel function: either one `queue.Create`, one `Put` and
no cancel, with the record holding the cancel function; or one `queue.Drop`,
no `Put`, the registry as before, and the cancel function called once if the
environment had been started and not at all otherwise. -/
theorem create_summary {lib : Lib} {cfg : Config} {manager : Manager} {w w1 : World}
    {r : Request} {evs : List Event} (h : create lib cfg manager w r = some (w1, evs)) :
    (∃ quota caps env id record, prepare lib manager w.num r = .ok (quota, caps, env) ∧
        record.Cancel = env.cancel ∧
        evs.filter Event.isQueueCall = [.queueCreate] ∧
        evs.filter Event.isPut = [.put id record] ∧
        evs.filter Event.isCancel = [] ∧
        w1.sessions = sessionsPut w.sessions id record) ∨
    (evs.filter Event.isQueueCall = [.queueDrop] ∧
        evs.filter Event.isPut = [] ∧
        w1.sessions = w.sessions ∧
        ((∃ evs0, prepare lib manager w.num r = .error evs0 ∧
            evs.filter Event.isCancel = []) ∨
          (∃ quota caps env, prepare lib manager w.num r = .ok (quota, caps, env) ∧
            evs.filter Event.isCancel = [.cancel env.cancel]))) := by
  have qa := @filter_attempts_nil _ attempt_not_queue
  have ca := @filter_attempts_nil _ attempt_not_cancel
  have pa := @filter_attempts_nil _ attempt_not_put
  rcases create_cases h with ⟨err, code, hp, rfl, rfl⟩ |
    ⟨quota, caps, env, tail, hp, ht, hcase⟩
  · right
    refine ⟨by simp [jsonError, Event.isQueueCall], by simp [jsonError, Event.isPut],
      rfl, Or.inl ⟨_, hp, by simp [jsonError, Event.isCancel]⟩⟩
  · rcases hcase with ⟨rfl, rfl⟩ | ⟨err, rfl, rfl⟩ | ⟨u, i, resp, -, -, hreg⟩
    · right
      refine ⟨by simp [qa ht, Event.isQueueCall], by simp [pa ht, Event.isPut], rfl,
        Or.inr ⟨_, _, _, hp, by simp [ca ht, Event.isCancel]⟩⟩
    · right
      refine ⟨by simp [qa ht, jsonError, Event.isQueueCall],
        by simp [pa ht, jsonError, Event.isPut], rfl,
        Or.inr ⟨_, _, _, hp, by simp [ca ht, jsonError, Event.isCancel]⟩⟩
    · have hw := sessionID_isWriter lib cfg resp
      have qw := filter_writer_nil writer_not_queue hw
      have cw := filter_writer_nil writer_not_cancel hw
      have pw := filter_writer_nil writer_not_put hw
      by_cases hid : (sessionID lib cfg resp).1 = ""
      · rw [register_of_empty hid, Prod.mk.injEq] at hreg
        obtain ⟨rfl, rfl⟩ := hreg
        right
        refine ⟨by simp [qa ht, qw, jsonError, Event.isQueueCall],
          by simp [pa ht, pw, jsonError, Event.isPut], rfl,
          Or.inr ⟨_, _, _, hp, by simp [ca ht, cw, jsonError, Event.isCancel]⟩⟩
      · rw [register_of_id hid, Prod.mk.injEq] at hreg
        obtain ⟨rfl, rfl⟩ := hreg
        left
        refine ⟨quota, caps, env, _, _, hp, rfl, by simp [qa ht, qw, Event.isQueueCall],
          by simp [pa ht, pw, Event.isPut], by simp [ca ht, cw, Event.isCancel], rfl⟩

end QueueAndCancel

section Returns

/-- The loop ends within the given attempts when one of them decides. -/
theorem handshake_returns (cancel : Nat) :
    ∀ (atts : List Attempt) (u : URL) (rPath : String) (i : Nat) (evs : List Event),
      (∃ a ∈ atts, a.decides = true) → (handshake cancel u rPath i evs atts).isSome = true := by
  intro atts
  induction atts with
  | nil =>
    rintro u rPath i evs ⟨a, ha, -⟩
    cases ha
  | cons a rest ih =>
    rintro u rPath i evs ⟨b, hb, hdec⟩
    simp only [handshake]
    cases hc : a.ctxErr with
    | some c =>
      cases c with
      | DeadlineExceeded =>
        rcases List.mem_cons.1 hb with rfl | hb
        · simp [Attempt.decides, hc] at hdec
        · exact ih _ _ _ _ ⟨b, hb, hdec⟩
      | Canceled => rfl
    | none =>
      cases hr : a.result with
      | error err => rfl
      | ok rsp =>
        by_cases hsw : rsp.StatusCode = 404 ∧ u.path = ""
        · rcases List.mem_cons.1 hb with rfl | hb
          · simp [Attempt.decides, hc, hr, hsw.1] at hdec
          · simp only [hsw, and_self, if_true]
            exact ih _ _ _ _ ⟨b, hb, hdec⟩
        · simp only [hsw, if_false]
          rfl

/-- The handler `create` returns when one of the attempts decides. -/
theorem create_returns (lib : Lib) (cfg : Config) (manager : Manager) (w : World)
    (r : Request) (h : ∃ a ∈ r.attempts, a.decides = true) :
    (create lib cfg manager w r).isSome = true := by
  unfold create
  simp only [serial]
  cases hp : prepare lib manager w.num r with
  | error evs => rfl
  | ok p =>
    obtain ⟨quota, caps, env⟩ := p
    have := handshake_returns env.cancel r.attempts env.u r.path 1 [] h
    cases hh : handshake env.cancel env.u r.path 1 [] r.attempts with
    | none => simp [hh] at this
    | some res => cases res <;> simp [hh]

end Returns

/-! ## The admission queue and the cancel function in `create` -/

section ClaimsQueueCancel

/-- C1: in every run of `create` that returns, exactly one call is made to the
admission queue, and it is `queue.Create` or `queue.Drop`; it is
`queue.Create` exactly when a session record was put into the registry and
`queue.Drop` exactly when none was; the registry then holds the put record,
or is unchanged. -/
theorem create_queue_exactly_once (lib : Lib) (cfg : Config) (manager : Manager)
    (w w1 : World) (r : Request) (evs : List Event)
    (h : create lib cfg manager w r = some (w1, evs)) :
    (evs.filter Event.isQueueCall = [.queueCreate] ∨
      evs.filter Event.isQueueCall = [.queueDrop]) ∧
    (evs.filter Event.isQueueCall = [.queueCreate] ↔
      ∃ id record, Event.put id record ∈ evs) ∧
    (evs.filter Event.isQueueCall = [.queueDrop] ↔
      ¬ ∃ id record, Event.put id record ∈ evs) ∧
    (∀ id record, Event.put id record ∈ evs →
      w1.sessions = sessionsPut w.sessions id record) ∧
    ((¬ ∃ id record, Event.put id record ∈ evs) → w1.sessions = w.sessions) := by
  have hmem : ∀ id record, Event.put id record ∈ evs ↔
      Event.put id record ∈ evs.filter Event.isPut := by
    intro id record
    simp [List.mem_filter, Event.isPut]
  rcases create_summary h with ⟨_, _, _, id, record, -, -, hq, hput, -, hs⟩ |
    ⟨hq, hput, hs, -⟩
  · have hin : Event.put id record ∈ evs := by
      rw [hmem, hput]
      exact List.mem_singleton.2 rfl
    have huniq : ∀ id2 record2, Event.put id2 record2 ∈ evs →
        id2 = id ∧ record2 = record := by
      intro id2 record2 h2
      rw [hmem, hput, List.mem_singleton] at h2
      exact ⟨(Event.put.inj h2).1, (Event.put.inj h2).2⟩
    refine ⟨Or.inl hq, ⟨fun _ => ⟨id, record, hin⟩, fun _ => hq⟩, ?_, ?_, ?_⟩
    · rw [hq]
      constructor
      · intro hc
        cases hc
      · intro hc
        exact absurd ⟨id, record, hin⟩ hc
    · intro id2 record2 h2
      obtain ⟨rfl, rfl⟩ := huniq id2 record2 h2
      exact hs
    · intro hc
      exact absurd ⟨id, record, hin⟩ hc
  · have hno : ¬ ∃ id record, Event.put id record ∈ evs := by
      rintro ⟨id, record, hin⟩
      rw [hmem, hput] at hin
      cases hin
    refine ⟨Or.inr hq, ?_, ⟨fun _ => hno, fun _ => hq⟩, ?_, fun _ => hs⟩
    · rw [hq]
      constructor
      · intro hc
        cases hc
      · intro hc
        exact absurd hc hno
    · intro id record hin
      exact absurd ⟨id, record, hin⟩ hno

/-- C1, at a run with a timed-out attempt followed by a response that carries
the session id `abc`: one `queue.Create`, and the record is in the registry. -/
theorem create_queue_exactly_once_witness :
    create exampleLib exampleCfg (exampleManager hubUpstream) World.init createdRequest =
      some (createdWorld, createdCalls) ∧
    createdCalls.filter Event.isQueueCall = [.queueCreate] ∧
    createdWorld.sessions =
      sessionsPut World.init.sessions "abc" (exampleSession hubUpstream) :=
  ⟨by decide,
    ((create_queue_exactly_once exampleLib exampleCfg (exampleManager hubUpstream) World.init
      createdWorld createdRequest createdCalls (by decide)).2.1).2
      ⟨"abc", exampleSession hubUpstream, by decide⟩,
    (create_queue_exactly_once exampleLib exampleCfg (exampleManager hubUpstream) World.init
      createdWorld createdRequest createdCalls (by decide)).2.2.2.1 _ _ (by decide)⟩

/-- C2: in every run of `create` that returns the cancel function is called at
most once: exactly once, and with the started environment's function, when the
environment was started and no session is registered; not at all when a session is
registered, whose record then holds the function; and not at all when the run
fails before the environment was started. -/
theorem create_cancel_at_most_once (lib : Lib) (cfg : Config) (manager : Manager)
    (w w1 : World) (r : Request) (evs : List Event)
    (h : create lib cfg manager w r = some (w1, evs)) :
    (evs.filter Event.isCancel).length ≤ 1 ∧
    (∀ quota caps env, prepare lib manager w.num r = .ok (quota, caps, env) →
      ((¬ ∃ id record, Event.put id record ∈ evs) →
        evs.filter Event.isCancel = [.cancel env.cancel]) ∧
      (∀ id record, Event.put id record ∈ evs →
        evs.filter Event.isCancel = [] ∧ record.Cancel = env.cancel)) ∧
    (∀ evs0, prepare lib manager w.num r = .error evs0 →
      evs.filter Event.isCancel = []) := by
  have hmem : ∀ id record, Event.put id record ∈ evs ↔
      Event.put id record ∈ evs.filter Event.isPut := by
    intro id record
    simp [List.mem_filter, Event.isPut]
  rcases create_summary h with ⟨quota, caps, env, id, record, hp, hc, -, hput, hcan, -⟩ |
    ⟨-, hput, -, ⟨evs0, hp, hcan⟩ | ⟨quota, caps, env, hp, hcan⟩⟩
  · refine ⟨by simp [hcan], ?_, ?_⟩
    · intro quota2 caps2 env2 hp2
      rw [hp] at hp2
      obtain ⟨-, -, rfl⟩ : quota = quota2 ∧ caps = caps2 ∧ env = env2 := by
        simpa using hp2
      have hin : Event.put id record ∈ evs := by
        rw [hmem, hput]
        exact List.mem_singleton.2 rfl
      refine ⟨fun hno => absurd ⟨id, record, hin⟩ hno, ?_⟩
      · intro id2 record2 h2
        rw [hmem, hput, List.mem_singleton] at h2
        obtain ⟨-, rfl⟩ := Event.put.inj h2
        exact ⟨hcan, hc⟩
    · intro evs0 hp2
      rw [hp] at hp2
      cases hp2
  · refine ⟨by simp [hcan], ?_, fun _ _ => hcan⟩
    intro quota caps env hp2
    rw [hp] at hp2
    cases hp2
  · refine ⟨by simp [hcan], ?_, ?_⟩
    · intro quota2 caps2 env2 hp2
      rw [hp] at hp2
      obtain ⟨-, -, rfl⟩ : quota = quota2 ∧ caps = caps2 ∧ env = env2 := by
        simpa using hp2
      refine ⟨fun _ => hcan, ?_⟩
      intro id2 record2 h2
      rw [hmem, hput] at h2
      cases h2
    · intro evs0 hp2
      rw [hp] at hp2
      cases hp2

/-- C2, at a run in which the client goes away during the second attempt:
the cancel function 7 of the started environment is called once. -/
theorem create_cancel_at_most_once_witness :
    create exampleLib exampleCfg (exampleManager hubUpstream) World.init canceledRequest =
      some (⟨1, [], []⟩, canceledCalls) ∧
    canceledCalls.filter Event.isCancel = [.cancel 7] :=
  ⟨by decide,
    ((create_cancel_at_most_once exampleLib exampleCfg (exampleManager hubUpstream)
      World.init ⟨1, [], []⟩ canceledRequest canceledCalls (by decide)).2.1
      "unknown" ⟨"firefox", "57.0", "1920x1080x24", false⟩ ⟨hubUpstream, "container-1", "", 7⟩
      rfl).1 (by rintro ⟨id, record, hin⟩; simp [canceledCalls] at hin)⟩

end ClaimsQueueCancel

/-! ## The target of the attempts and the response without a session id -/

section ClaimsTargetAndNoId

/-- The first attempt of the loop is posted to the upstream's host and to the
cleaned join of the upstream path and the request path. -/
theorem handshake_first_target (cancel : Nat) (u : URL) (rPath : String) (a : Attempt)
    (rest : List Attempt) (res : Loop)
    (h : handshake cancel u rPath 1 [] (a :: rest) = some res) :
    res.evs.head? = some (.attempt u u.host (pathClean (u.path ++ rPath)) 1) := by
  simp only [handshake] at h
  cases hc : a.ctxErr with
  | some c =>
    cases c with
    | DeadlineExceeded =>
      simp only [hc, List.nil_append] at h
      obtain ⟨tail, -, hres⟩ := handshake_shape _ _ _ _ _ _ _ h
      rcases hres with ⟨u1, i1, resp, rfl, -⟩ | rfl | ⟨err, rfl⟩ <;> rfl
    | Canceled =>
      simp only [hc, Option.some.injEq, List.nil_append] at h
      subst h
      rfl
  | none =>
    simp only [hc, List.nil_append] at h
    cases hr : a.result with
    | error err =>
      simp only [hr, Option.some.injEq] at h
      subst h
      rfl
    | ok rsp =>
      simp only [hr] at h
      split at h
      · obtain ⟨tail, -, hres⟩ := handshake_shape _ _ _ _ _ _ _ h
        rcases hres with ⟨u1, i1, resp, rfl, -⟩ | rfl | ⟨err, rfl⟩ <;> rfl
      · simp only [Option.some.injEq] at h
        subst h
        rfl

/-- C3, at an upstream with the path `/wd/hub` and two attempts that time out:
the first POST goes to `/wd/hub/session`, the cleaned join of the upstream path
and `/session`, but the second goes to `/wd/hub/wd/hub/session` and the third to
`/wd/hub/wd/hub/wd/hub/session`, because every iteration joins the upstream path
with the request path the iteration before left behind. -/
theorem create_retry_target_accumulates :
    create exampleLib exampleCfg (exampleManager hubUpstream) World.init retriedRequest =
      some (createdWorld, retriedCalls) ∧
    retriedCalls.filter Event.isAttempt =
      [.attempt hubUpstream "up:4444" "/wd/hub/session" 1,
        .attempt hubUpstream "up:4444" "/wd/hub/wd/hub/session" 2,
        .attempt hubUpstream "up:4444" "/wd/hub/wd/hub/wd/hub/session" 3] ∧
    pathClean (hubUpstream.path ++ "/session") = "/wd/hub/session" ∧
    pathClean (hubUpstream.path ++ "/session") ≠ "/wd/hub/wd/hub/session" := by
  refine ⟨by decide, by decide, by decide, by decide⟩

theorem clientView_step_attempt (v : ClientView) (e : Event) (h : e.isAttempt = true) :
    v.step e = v := by
  cases e <;> simp_all [Event.isAttempt, ClientView.step]

theorem foldl_step_attempts (tail : List Event) (h : ∀ e ∈ tail, e.isAttempt = true) :
    ∀ v : ClientView, tail.foldl ClientView.step v = v := by
  induction tail with
  | nil => intro v; rfl
  | cons e l ih =>
    intro v
    rw [List.foldl_cons, clientView_step_attempt v e (h e (List.mem_cons_self _ _))]
    exact ih (fun e he => h e (List.mem_cons_of_mem _ he)) v

/-- The attempts of the loop do not touch the response writer. -/
theorem clientView_attempts (tail rest : List Event) (h : ∀ e ∈ tail, e.isAttempt = true) :
    clientView (tail ++ rest) = clientView rest := by
  unfold clientView
  rw [List.foldl_append, foldl_step_attempts tail h]

/-- What `create` does when no session id can be extracted from the final
response: nothing is put into the registry, the error document with the
message of the protocol error is written to the body, `queue.Drop` and the
cancel function are called once each. The status 502 reaches the client only
when the `Location` header is present and fails to parse; in every other case
the status has already been sent, and it is the upstream's. -/
theorem create_no_id (lib : Lib) (cfg : Config) (manager : Manager) (w : World)
    (r : Request) (quota : String) (caps : Caps) (env : Started) (evs0 : List Event)
    (u : URL) (i : Nat) (resp : Response)
    (hp : prepare lib manager w.num r = .ok (quota, caps, env))
    (hl : handshake env.cancel env.u r.path 1 [] r.attempts = some (.final evs0 u i resp))
    (hid : (sessionID lib cfg resp).1 = "") :
    ∃ evs, create lib cfg manager w r = some ((serial w).2, evs) ∧
      (serial w).2.sessions = w.sessions ∧
      evs.filter Event.isPut = [] ∧
      evs.filter Event.isQueueCall = [.queueDrop] ∧
      evs.filter Event.isCancel = [.cancel env.cancel] ∧
      (clientView evs).body.getLast? =
        some (.errorEnvelope "protocol error: could not determine session id") ∧
      (clientView evs).status =
        some (if resp.Location = "" then resp.StatusCode
          else match lib.urlParse resp.Location with
            | .ok _ => resp.StatusCode
            | .error _ => 502) := by
  obtain ⟨tail, ht, hres⟩ := handshake_shape _ _ _ _ _ _ _ hl
  simp only [List.nil_append] at hres
  have hev : evs0 = tail := by
    rcases hres with ⟨u1, i1, resp1, h1, -⟩ | h1 | ⟨err, h1⟩
    · exact (Loop.final.inj h1).1
    · cases h1
    · cases h1
  subst hev
  have hw := sessionID_isWriter lib cfg resp
  refine ⟨evs0 ++ (sessionID lib cfg resp).2 ++
    jsonError "protocol error: could not determine session id" 502 ++
    [.queueDrop, .cancel env.cancel], ?_, rfl, ?_, ?_, ?_, ?_, ?_⟩
  · unfold create
    simp only [serial, hp, hl, register_of_empty hid]
  · simp [filter_attempts_nil attempt_not_put ht, filter_writer_nil writer_not_put hw,
      jsonError, Event.isPut]
  · simp [filter_attempts_nil attempt_not_queue ht, filter_writer_nil writer_not_queue hw,
      jsonError, Event.isQueueCall]
  · simp [filter_attempts_nil attempt_not_cancel ht, filter_writer_nil writer_not_cancel hw,
      jsonError, Event.isCancel]
  · simp only [List.append_assoc]
    rw [clientView_attempts _ _ ht]
    unfold sessionID
    dsimp only
    split
    · split <;> simp [clientView, ClientView.step, jsonError]
    · simp [clientView, ClientView.step, jsonError]
  · simp only [List.append_assoc]
    rw [clientView_attempts _ _ ht]
    unfold sessionID
    dsimp only
    by_cases hloc : resp.Location = ""
    · simp [clientView, ClientView.step, jsonError, hloc]
    · cases hparse : lib.urlParse resp.Location <;>
        simp [clientView, ClientView.step, jsonError, hloc]

/-- C4, at two final responses without a session id. With status 200, no
`Location` header and the body `{}`, `create` calls `jsonError` with status
502, `queue.Drop` and the cancel function and registers nothing, but the client
receives status 200: the status and the body had been relayed before the id
was looked at, so the later `WriteHeader(502)` is ignored and the error
document follows the relayed body. With status 303 and the `Location` header
`/session/`, whose path ends in an empty segment, the client receives status
303 and a rewritten location, for the same reason. -/
theorem create_no_id_status_already_sent :
    create exampleLib exampleCfg (exampleManager hubUpstream) World.init noIdRequest =
      some (⟨1, [], []⟩, noIdCalls) ∧
    (clientView noIdCalls).status = some 200 ∧
    (clientView noIdCalls).status ≠ some 502 ∧
    (clientView noIdCalls).body =
      [.raw "\x7b\x7d", .errorEnvelope "protocol error: could not determine session id"] ∧
    noIdCalls.filter Event.isQueueCall = [.queueDrop] ∧
    noIdCalls.filter Event.isCancel = [.cancel 7] ∧
    create exampleLib exampleCfg (exampleManager hubUpstream) World.init emptySegmentRequest =
      some (⟨1, [], []⟩, emptySegmentCalls) ∧
    (stringsSplit "/session/").getLast? = some "" ∧
    (clientView emptySegmentCalls).status = some 303 ∧
    (clientView emptySegmentCalls).headers =
      [("Location", "http://selenoid.example.com:4444/wd/hub/session")] := by
  refine ⟨by decide, by decide, by decide, by decide, by decide, by decide, by decide,
    by decide, by decide, by decide⟩

end ClaimsTargetAndNoId

/-! ## The session id of a creation -/

section ClaimSessionId

theorem stringsSplit_ne_nil (s : String) : stringsSplit s ≠ [] := by
  unfold stringsSplit
  cases h : s.data with
  | nil => simp [splitSlash]
  | cons c cs =>
    simp only [splitSlash]
    split
    · simp
    · split <;> simp

theorem getLastD_of_getLast? {l : List String} {id : String} (h : l.getLast? = some id) :
    l.getLastD "" = id := by
  rw [List.getLastD_eq_getLast?, h]
  rfl

/-- The id `create` extracts is the id of the specification, and the empty
string where the specification has none. -/
theorem sessionID_fst (lib : Lib) (cfg : Config) (resp : Response) :
    (sessionID lib cfg resp).1 = (specSessionID lib resp).getD "" := by
  unfold sessionID specSessionID
  dsimp only
  by_cases hloc : resp.Location = ""
  · rw [if_neg (not_not.2 hloc), if_neg (not_not.2 hloc)]
    by_cases hid : (lib.decodeSession resp.Body).ID = ""
    · simp [hid]
    · simp [hid]
  · rw [if_pos hloc, if_pos hloc]
    cases hp : lib.urlParse resp.Location with
    | error e => rfl
    | ok l => simp only [List.getLastD_eq_getLast?]

theorem sessionID_eq_spec (lib : Lib) (cfg : Config) (resp : Response) (id : String)
    (h : (sessionID lib cfg resp).1 = id) (hne : id ≠ "") :
    specSessionID lib resp = some id := by
  rw [sessionID_fst] at h
  cases hs : specSessionID lib resp with
  | none =>
    rw [hs] at h
    exact absurd h.symm hne
  | some x =>
    rw [hs] at h
    exact congrArg some h

/-- C5: for every final response `create` registers a session exactly when
the specification gives the response a non-empty session id, and under that
id. With an empty `Location` header the session is registered under the
`sessionId` of the body when that is not empty, and under the
`value.sessionId` of the body when the `sessionId` is empty and that is not. With
a non-empty `Location` header that parses, the session is registered under the
last segment of the path of its URL when that is not empty, and the body
plays no part: the outcome is the same for every body and every decoder. -/
theorem create_session_id (lib : Lib) (cfg : Config) (manager : Manager) (w : World)
    (r : Request) (quota : String) (caps : Caps) (env : Started) (evs0 : List Event)
    (u : URL) (i : Nat) (resp : Response)
    (hp : prepare lib manager w.num r = .ok (quota, caps, env))
    (hl : handshake env.cancel env.u r.path 1 [] r.attempts = some (.final evs0 u i resp)) :
    ∃ w1 evs, create lib cfg manager w r = some (w1, evs) ∧
      (∀ id, specSessionID lib resp = some id → id ≠ "" →
        ∃ record, evs.filter Event.isPut = [.put id record] ∧
          sessionsGet w1.sessions id = some record) ∧
      (∀ id record, Event.put id record ∈ evs →
        specSessionID lib resp = some id ∧ id ≠ "") ∧
      (resp.Location = "" → (lib.decodeSession resp.Body).ID ≠ "" →
        ∃ record, evs.filter Event.isPut = [.put (lib.decodeSession resp.Body).ID record] ∧
          sessionsGet w1.sessions (lib.decodeSession resp.Body).ID = some record) ∧
      (resp.Location = "" → (lib.decodeSession resp.Body).ID = "" →
        (lib.decodeSession resp.Body).ValueID ≠ "" →
        ∃ record,
          evs.filter Event.isPut = [.put (lib.decodeSession resp.Body).ValueID record] ∧
          sessionsGet w1.sessions (lib.decodeSession resp.Body).ValueID = some record) ∧
      (resp.Location ≠ "" →
        (∀ l id, lib.urlParse resp.Location = .ok l →
          (stringsSplit l.path).getLast? = some id → id ≠ "" →
          ∃ record, evs.filter Event.isPut = [.put id record] ∧
            sessionsGet w1.sessions id = some record) ∧
        ∀ (decode : String → Decoded) (body : String),
          register { lib with decodeSession := decode } cfg (serial w).2 quota caps env u
              { resp with Body := body } evs0 = (w1, evs)) := by
  have hev := handshake_final_attempts hl
  have hw := sessionID_isWriter lib cfg resp
  have hcreate : create lib cfg manager w r =
      some (register lib cfg (serial w).2 quota caps env u resp evs0) := by
    unfold create
    simp only [serial, hp, hl]
  have hfwd : ∀ id, specSessionID lib resp = some id → id ≠ "" →
      ∃ record,
        (register lib cfg (serial w).2 quota caps env u resp evs0).2.filter Event.isPut =
          [.put id record] ∧
        sessionsGet (register lib cfg (serial w).2 quota caps env u resp evs0).1.sessions id =
          some record := by
    intro id hspec hne
    have hsid : (sessionID lib cfg resp).1 = id := by
      rw [sessionID_fst, hspec]
      rfl
    have hid : (sessionID lib cfg resp).1 ≠ "" := hsid ▸ hne
    rw [register_of_id hid, hsid]
    refine ⟨newSession quota caps env u (serial w).2.timers.length, ?_, sessionsGet_put _ _ _⟩
    simp [filter_attempts_nil attempt_not_put hev, filter_writer_nil writer_not_put hw,
      Event.isPut]
  refine ⟨_, _, hcreate, hfwd, ?_, ?_, ?_, ?_⟩
  · intro id record hput
    have hf : Event.put id record ∈
        (register lib cfg (serial w).2 quota caps env u resp evs0).2.filter Event.isPut :=
      List.mem_filter.2 ⟨hput, rfl⟩
    have hid : (sessionID lib cfg resp).1 = id ∧ id ≠ "" := by
      by_cases he : (sessionID lib cfg resp).1 = ""
      · rw [register_of_empty he] at hf
        simp [filter_attempts_nil attempt_not_put hev, filter_writer_nil writer_not_put hw,
          jsonError, Event.isPut] at hf
      · rw [register_of_id he] at hf
        simp [filter_attempts_nil attempt_not_put hev, filter_writer_nil writer_not_put hw,
          Event.isPut] at hf
        exact ⟨hf.1.symm, hf.1 ▸ he⟩
    exact ⟨sessionID_eq_spec lib cfg resp id hid.1 hid.2, hid.2⟩
  · intro hloc hid
    apply hfwd _ _ hid
    unfold specSessionID
    rw [if_neg (not_not.2 hloc), if_pos hid]
  · intro hloc hid hv
    apply hfwd _ _ hv
    unfold specSessionID
    rw [if_neg (not_not.2 hloc), if_neg (not_not.2 hid)]
  · intro hloc
    constructor
    · intro l id hparse hlast hne
      apply hfwd _ _ hne
      unfold specSessionID
      rw [if_pos hloc]
      simp only [hparse, hlast]
    · intro decode body
      have hsame : sessionID { lib with decodeSession := decode } cfg { resp with Body := body } =
          sessionID lib cfg resp := by
        unfold sessionID
        dsimp only
        rw [if_pos hloc, if_pos hloc]
      show register { lib with decodeSession := decode } cfg (serial w).2 quota caps env u
          { resp with Body := body } evs0 =
        register lib cfg (serial w).2 quota caps env u resp evs0
      simp only [register, hsame]

/-- C5, at three final responses. With no `Location` header and the body
`{"value":{"sessionId":"xyz"}}` the session is registered under `xyz`; with
the body `{"sessionId":"abc"}` under `abc`; with the `Location` header
`/session/loc1` and a body that holds the id `abc`, under `loc1`. -/
theorem create_session_id_witness :
    (∃ w1 evs record,
      create exampleLib exampleCfg (exampleManager hubUpstream) World.init
        (exampleRequest [attemptResponse ⟨200, "", xyzBody⟩]) = some (w1, evs) ∧
      evs.filter Event.isPut = [.put "xyz" record] ∧
      sessionsGet w1.sessions "xyz" = some record) ∧
    (∃ w1 evs record,
      create exampleLib exampleCfg (exampleManager hubUpstream) World.init
        (exampleRequest [attemptResponse ⟨200, "", abcBody⟩]) = some (w1, evs) ∧
      evs.filter Event.isPut = [.put "abc" record] ∧
      sessionsGet w1.sessions "abc" = some record) ∧
    (∃ w1 evs record,
      create exampleLib exampleCfg (exampleManager rootUpstream) World.init locationRequest =
        some (w1, evs) ∧
      evs.filter Event.isPut = [.put "loc1" record] ∧
      sessionsGet w1.sessions "loc1" = some record) ∧
    create exampleLib exampleCfg (exampleManager rootUpstream) World.init locationRequest =
      some (⟨1, [("loc1", locationSession)], [Timer.armed "loc1"]⟩, locationCalls) ∧
    (exampleLib.decodeSession abcBody).ID = "abc" := by
  refine ⟨?_, ?_, ?_, by decide, by decide⟩
  · obtain ⟨w1, evs, hc, -, -, -, hvalue, -⟩ :=
      create_session_id exampleLib exampleCfg (exampleManager hubUpstream) World.init
        (exampleRequest [attemptResponse ⟨200, "", xyzBody⟩])
        "unknown" ⟨"firefox", "57.0", "1920x1080x24", false⟩
        ⟨hubUpstream, "container-1", "", 7⟩
        [.attempt hubUpstream "up:4444" "/wd/hub/session" 1] hubUpstream 1
        ⟨200, "", xyzBody⟩ rfl (by decide)
    obtain ⟨record, h1, h2⟩ := hvalue (by decide) (by decide) (by decide)
    exact ⟨w1, evs, record, hc, h1, h2⟩
  · obtain ⟨w1, evs, hc, -, -, htop, -, -⟩ :=
      create_session_id exampleLib exampleCfg (exampleManager hubUpstream) World.init
        (exampleRequest [attemptResponse ⟨200, "", abcBody⟩])
        "unknown" ⟨"firefox", "57.0", "1920x1080x24", false⟩
        ⟨hubUpstream, "container-1", "", 7⟩
        [.attempt hubUpstream "up:4444" "/wd/hub/session" 1] hubUpstream 1
        ⟨200, "", abcBody⟩ rfl (by decide)
    obtain ⟨record, h1, h2⟩ := htop (by decide) (by decide)
    exact ⟨w1, evs, record, hc, h1, h2⟩
  · obtain ⟨w1, evs, hc, -, -, -, -, hlocation⟩ :=
      create_session_id exampleLib exampleCfg (exampleManager rootUpstream) World.init
        locationRequest "unknown" ⟨"firefox", "57.0", "1920x1080x24", false⟩
        ⟨rootUpstream, "container-1", "", 7⟩
        [.attempt rootUpstream "up:4444" "/session" 1] rootUpstream 1
        ⟨303, "/session/loc1", abcBody⟩ rfl (by decide)
    obtain ⟨record, h1, h2⟩ :=
      (hlocation (by decide)).1 ⟨"", "", "/session/loc1"⟩ "loc1" rfl (by decide)
        (by decide)
    exact ⟨w1, evs, record, hc, h1, h2⟩

end ClaimSessionId

/-! ## The rewritten `Location` header -/

section ClaimLocation

theorem splitSlash_of_no_slash : ∀ cs : List Char, '/' ∉ cs → splitSlash cs = [cs] := by
  intro cs
  induction cs with
  | nil => intro _; rfl
  | cons c cs ih =>
    intro h
    have hc : c ≠ '/' := fun hc => h (hc ▸ List.mem_cons_self _ _)
    have hcs : '/' ∉ cs := fun hcs => h (List.mem_cons_of_mem _ hcs)
    simp only [splitSlash, hc, if_false, ih hcs]

theorem splitSlash_no_slash : ∀ cs : List Char, ∀ seg ∈ splitSlash cs, '/' ∉ seg := by
  intro cs
  induction cs with
  | nil =>
    intro seg hseg
    simp only [splitSlash, List.mem_singleton] at hseg
    subst hseg
    simp
  | cons c cs ih =>
    intro seg hseg
    simp only [splitSlash] at hseg
    by_cases hc : c = '/'
    · simp only [hc, if_true, List.mem_cons] at hseg
      rcases hseg with rfl | hseg
      · simp
      · exact ih seg hseg
    · simp only [hc, if_false] at hseg
      cases hs : splitSlash cs with
      | nil =>
        simp only [hs, List.mem_singleton] at hseg
        subst hseg
        simp only [List.mem_singleton]
        exact fun h => hc h.symm
      | cons s rest =>
        simp only [hs, List.mem_cons] at hseg
        rcases hseg with rfl | hseg
        · intro hmem
          rcases List.mem_cons.1 hmem with h | h
          · exact hc h.symm
          · exact ih s (hs ▸ List.mem_cons_self _ _) h
        · exact ih seg (hs ▸ List.mem_cons_of_mem _ hseg)

/-- A segment of `strings.Split(s, "/")` holds no slash. -/
theorem stringsSplit_no_slash (s id : String) (h : id ∈ stringsSplit s) : '/' ∉ id.data := by
  unfold stringsSplit at h
  rw [List.mem_map] at h
  obtain ⟨seg, hseg, rfl⟩ := h
  exact splitSlash_no_slash _ seg hseg

/-- The join `path.Join("/wd/hub/session", id)` appends the id as a new segment
when the id is a non-empty segment other than `.` and `..`. -/
theorem pathJoin_session (id : String) (hs : '/' ∉ id.data) (hne : id ≠ "") (hdot : id ≠ ".")
    (hdd : id ≠ "..") : pathJoin "/wd/hub/session" id = "/wd/hub/session/" ++ id := by
  have h0 : id.data ≠ [] := fun h => hne (String.ext h)
  have h1 : id.data ≠ ['.'] := fun h => hdot (String.ext h)
  have h2 : id.data ≠ ['.', '.'] := fun h => hdd (String.ext h)
  have hsplit := splitSlash_of_no_slash id.data hs
  have hp : ("/wd/hub/session" ++ "/" ++ id).data =
      '/' :: 'w' :: 'd' :: '/' :: 'h' :: 'u' :: 'b' :: '/' :: 's' :: 'e' :: 's' :: 's' :: 'i' ::
        'o' :: 'n' :: '/' :: id.data := by
    simp [String.data_append]
  have hpne : "/wd/hub/session" ++ "/" ++ id ≠ "" := by
    intro h
    rw [String.ext_iff, hp] at h
    cases h
  have hlit : ("/wd/hub/session" : String) ≠ "" := by decide
  unfold pathJoin
  rw [if_neg (fun h => hlit h.1), if_neg hlit]
  unfold pathClean
  rw [if_neg hpne]
  have hfold : (List.foldl (cleanStep true) [] (splitSlash ("/wd/hub/session" ++ "/" ++ id).data)) =
      [id.data, ['s', 'e', 's', 's', 'i', 'o', 'n'], ['h', 'u', 'b'], ['w', 'd']] := by
    rw [hp]
    simp [splitSlash, hsplit, cleanStep, h0, h1, h2]
  have hhead : ("/wd/hub/session" ++ "/" ++ id).data.head? = some '/' := by
    rw [hp]
    rfl
  simp only [hhead, decide_True, if_true, hfold]
  have hdata : ("/" ++ String.mk (List.intercalate ['/']
      [id.data, ['s', 'e', 's', 's', 'i', 'o', 'n'], ['h', 'u', 'b'], ['w', 'd']].reverse)).data =
      ("/wd/hub/session/" ++ id).data := by
    simp [String.data_append, List.intercalate]
  rw [if_neg]
  · exact String.ext hdata
  · intro h
    rw [String.ext_iff, hdata] at h
    simp [String.data_append] at h

theorem escape_of_none (f : Char → Bool) (s : String) (h : ∀ c ∈ s.data, f c = false) :
    escape f s = s := by
  unfold escape
  apply String.ext
  simp only
  have : ∀ l : List Char, (∀ c ∈ l, f c = false) →
      (l.flatMap fun c => if f c = true then (utf8Bytes c).flatMap percentByte else [c]) = l := by
    intro l
    induction l with
    | nil => intro _; rfl
    | cons c l ih =>
      intro hl
      rw [List.flatMap_cons, ih (fun c hc => hl c (List.mem_cons_of_mem _ hc))]
      simp [hl c (List.mem_cons_self _ _)]
  exact this s.data h

/-- The string form of the rewritten location when neither the host name nor the
id holds a character that is escaped: the text `http://`, the host name, the
path `/wd/hub/session/` and the id. -/
theorem urlString_session (host id : String) (hh : ∀ c ∈ host.data, shouldEscapeHost c = false)
    (hi : ∀ c ∈ id.data, shouldEscapePath c = false) :
    urlString ⟨"http", host, "/wd/hub/session/" ++ id⟩ =
      "http://" ++ host ++ "/wd/hub/session/" ++ id := by
  have hp : ("/wd/hub/session/" ++ id).data =
      '/' :: 'w' :: 'd' :: '/' :: 'h' :: 'u' :: 'b' :: '/' :: 's' :: 'e' :: 's' :: 's' :: 'i' ::
        'o' :: 'n' :: '/' :: id.data := by
    simp [String.data_append]
  have hstar : "/wd/hub/session/" ++ id ≠ "*" := by
    intro h
    rw [String.ext_iff, hp] at h
    cases h
  have hpne : "/wd/hub/session/" ++ id ≠ "" := by
    intro h
    rw [String.ext_iff, hp] at h
    cases h
  have hesc : escape shouldEscapePath ("/wd/hub/session/" ++ id) = "/wd/hub/session/" ++ id := by
    apply escape_of_none
    intro c hc
    rw [hp] at hc
    simp only [List.mem_cons] at hc
    rcases hc with rfl | rfl | rfl | rfl | rfl | rfl | rfl | rfl | rfl | rfl | rfl | rfl | rfl |
      rfl | rfl | rfl | hc
    all_goals first | exact hi c hc | decide
  have hs : ("http" : String) ≠ "" := by decide
  have hhead : ("/wd/hub/session/" ++ id).data.head? = some '/' := by
    rw [hp]
    rfl
  have hnz : ∀ a : String, "http" ++ ":" ++ a ++ "" ≠ "" := by
    intro a h
    rw [String.ext_iff] at h
    simp [String.data_append] at h
  unfold urlString escapedPath
  simp only [if_neg hstar, hesc, hhead, ne_eq, hs, not_false_eq_true, if_true, true_or,
    hpne, or_true, not_true_eq_false, false_and, and_false, if_false]
  rw [escape_of_none _ _ hh]
  by_cases hhost : host = ""
  · simp only [hhost, not_true_eq_false, if_false]
    rw [if_neg (fun h => hnz _ h.1)]
    apply String.ext
    simp [String.data_append]
  · simp only [hhost, not_false_eq_true, if_true]
    rw [if_neg (fun h => hnz _ h.1)]
    apply String.ext
    simp [String.data_append]

end ClaimLocation

section ClaimLocationRewritten

/-- The id and the writer calls of `create` for a `Location` header whose path
ends in a non-empty segment other than `.` and `..`. -/
theorem sessionID_of_location (lib : Lib) (cfg : Config) (resp : Response) (l : URL)
    (id : String) (hloc : resp.Location ≠ "") (hparse : lib.urlParse resp.Location = .ok l)
    (hlast : (stringsSplit l.path).getLast? = some id)
    (hne : id ≠ "") (hdot : id ≠ ".") (hdd : id ≠ "..") :
    sessionID lib cfg resp =
      (id, [.headerAdd "Location" (urlString ⟨"http", cfg.hostname, "/wd/hub/session/" ++ id⟩),
        .writeHeader resp.StatusCode]) := by
  have hmem : id ∈ stringsSplit l.path := by
    obtain ⟨ys, hys⟩ := List.getLast?_eq_some_iff.1 hlast
    rw [hys]
    simp
  have hjoin := pathJoin_session id (stringsSplit_no_slash _ _ hmem) hne hdot hdd
  unfold sessionID
  dsimp only
  rw [if_pos hloc]
  simp only [hparse, getLastD_of_getLast? hlast, hjoin]

/-- C6, amended: for every final response whose `Location` header parses to a
URL whose path ends in a non-empty segment `id` other than `.` and `..`,
`create` sends the client the upstream's status code with one `Location` header,
the string form of the URL with scheme `http`, the configured host name and the
path `/wd/hub/session/id`; that is the text `http://hostname/wd/hub/session/id`
when neither the host name nor the id holds a character that the string form
escapes; and the session is stored in the registry under `id`. -/
theorem create_location_rewritten (lib : Lib) (cfg : Config) (manager : Manager) (w : World)
    (r : Request) (quota : String) (caps : Caps) (env : Started) (evs0 : List Event)
    (u : URL) (i : Nat) (resp : Response) (l : URL) (id : String)
    (hp : prepare lib manager w.num r = .ok (quota, caps, env))
    (hl : handshake env.cancel env.u r.path 1 [] r.attempts = some (.final evs0 u i resp))
    (hloc : resp.Location ≠ "") (hparse : lib.urlParse resp.Location = .ok l)
    (hlast : (stringsSplit l.path).getLast? = some id)
    (hne : id ≠ "") (hdot : id ≠ ".") (hdd : id ≠ "..") :
    ∃ w1 evs record, create lib cfg manager w r = some (w1, evs) ∧
      (clientView evs).status = some resp.StatusCode ∧
      (clientView evs).headers =
        [("Location", urlString ⟨"http", cfg.hostname, "/wd/hub/session/" ++ id⟩)] ∧
      ((∀ c ∈ cfg.hostname.data, shouldEscapeHost c = false) →
        (∀ c ∈ id.data, shouldEscapePath c = false) →
        (clientView evs).headers =
          [("Location", "http://" ++ cfg.hostname ++ "/wd/hub/session/" ++ id)]) ∧
      evs.filter Event.isPut = [.put id record] ∧
      sessionsGet w1.sessions id = some record := by
  have hsid := sessionID_of_location lib cfg resp l id hloc hparse hlast hne hdot hdd
  have hid : (sessionID lib cfg resp).1 ≠ "" := by
    rw [hsid]
    exact hne
  have hev := handshake_final_attempts hl
  have hcreate : create lib cfg manager w r =
      some (register lib cfg (serial w).2 quota caps env u resp evs0) := by
    unfold create
    simp only [serial, hp, hl]
  rw [register_of_id hid, hsid] at hcreate
  have hview : clientView (evs0 ++
      [.headerAdd "Location" (urlString ⟨"http", cfg.hostname, "/wd/hub/session/" ++ id⟩),
        .writeHeader resp.StatusCode] ++
      [.arm (serial w).2.timers.length,
        .put id (newSession quota caps env u (serial w).2.timers.length), .queueCreate]) =
      ⟨some resp.StatusCode,
        [("Location", urlString ⟨"http", cfg.hostname, "/wd/hub/session/" ++ id⟩)],
        [("Location", urlString ⟨"http", cfg.hostname, "/wd/hub/session/" ++ id⟩)], []⟩ := by
    rw [List.append_assoc, clientView_attempts _ _ hev]
    simp [clientView, ClientView.step]
  refine ⟨_, _, newSession quota caps env u (serial w).2.timers.length, hcreate, ?_, ?_, ?_,
    ?_, ?_⟩
  · rw [hview]
  · rw [hview]
  · intro hh hi
    rw [hview, urlString_session _ _ hh hi]
  · simp [filter_attempts_nil attempt_not_put hev, Event.isPut]
  · exact sessionsGet_put _ _ _

/-- C6, amended, at a final response with status 303 and the `Location` header
`/session/loc1`: the client receives 303 with the location
`http://selenoid.example.com:4444/wd/hub/session/loc1`, and the session is stored
under `loc1`. -/
theorem create_location_rewritten_witness :
    ∃ w1 evs record,
      create exampleLib exampleCfg (exampleManager rootUpstream) World.init locationRequest =
        some (w1, evs) ∧
      (clientView evs).status = some 303 ∧
      (clientView evs).headers =
        [("Location", "http://selenoid.example.com:4444/wd/hub/session/loc1")] ∧
      evs.filter Event.isPut = [.put "loc1" record] ∧
      sessionsGet w1.sessions "loc1" = some record := by
  obtain ⟨w1, evs, record, h1, h2, -, h4, h5, h6⟩ :=
    create_location_rewritten exampleLib exampleCfg (exampleManager rootUpstream) World.init
      locationRequest "unknown" ⟨"firefox", "57.0", "1920x1080x24", false⟩
      ⟨rootUpstream, "container-1", "", 7⟩ [.attempt rootUpstream "up:4444" "/session" 1]
      rootUpstream 1 ⟨303, "/session/loc1", abcBody⟩ ⟨"", "", "/session/loc1"⟩ "loc1"
      rfl (by decide) (by decide) rfl (by decide) (by decide) (by decide) (by decide)
  exact ⟨w1, evs, record, h1, h2, h4 (by decide) (by decide), h5, h6⟩

/-- C6, as stated, fails at two final responses with status 303. With the
`Location` header `/x/y/..` the session is stored under the id `..`, while the
location sent to the client is `http://selenoid.example.com:4444/wd/hub`, because
`path.Join` resolves the segment. With the `Location` header `/x/y/a b` the
session is stored under `a b`, while the location sent to the client ends in
`a%20b`, because the string form of a URL escapes the space. -/
theorem create_location_not_literal :
    create exampleLib exampleCfg (exampleManager rootUpstream) World.init dotDotRequest =
      some (⟨1, [("..", locationSession)], [Timer.armed ".."]⟩, dotDotCalls) ∧
    (stringsSplit "/x/y/..").getLast? = some ".." ∧
    (clientView dotDotCalls).headers =
      [("Location", "http://selenoid.example.com:4444/wd/hub")] ∧
    (clientView dotDotCalls).headers ≠
      [("Location", "http://selenoid.example.com:4444/wd/hub/session/..")] ∧
    create exampleLib exampleCfg (exampleManager rootUpstream) World.init spaceRequest =
      some (⟨1, [("a b", locationSession)], [Timer.armed "a b"]⟩, spaceCalls) ∧
    (stringsSplit "/x/y/a b").getLast? = some "a b" ∧
    (clientView spaceCalls).headers =
      [("Location", "http://selenoid.example.com:4444/wd/hub/session/a%20b")] ∧
    (clientView spaceCalls).headers ≠
      [("Location", "http://selenoid.example.com:4444/wd/hub/session/a b")] := by
  refine ⟨by decide, by decide, by decide, by decide, by decide, by decide, by decide,
    by decide⟩

end ClaimLocationRewritten

/-! ## The director of `proxy` -/

section ClaimDirector

/-- The locked section panics when the channel of the session has been closed. -/
theorem directorLocked_closed {w : World} {r : ProxyRequest} {id : String} {sess : Session}
    {t : Timer} (ht : w.timers[sess.Timeout]? = some t) (hclosed : t.closed = true) :
    directorLocked w r id sess = none := by
  unfold directorLocked
  simp [closeToken, ht, Timer.signal, hclosed]

end ClaimDirector

/-! ## The path switch of the handshake loop -/

section ClaimSwitch

theorem upstreams_append (a b : List Event) : upstreams (a ++ b) = upstreams a ++ upstreams b := by
  unfold upstreams
  rw [List.filterMap_append]

theorem upstreams_attempt (u : URL) (host path : String) (i : Nat) :
    upstreams [.attempt u host path i] = [u] := rfl

/-- The upstream URLs of the attempts of a finished loop: the URL the loop
started with, at least once, then the switched URL, which appears only if
the path was empty; the loop ends with the last of them. -/
theorem handshake_upstreams (cancel : Nat) :
    ∀ (atts : List Attempt) (u : URL) (rPath : String) (i : Nat) (evs : List Event) (res : Loop),
      handshake cancel u rPath i evs atts = some res →
      ∃ m n, 1 ≤ m ∧
        upstreams res.evs = upstreams evs ++ List.replicate m u ++ List.replicate n (switched u) ∧
        (0 < n → u.path = "") ∧
        ∀ evs1 u1 i1 resp, res = .final evs1 u1 i1 resp →
          u1 = if 0 < n then switched u else u := by
  intro atts
  induction atts with
  | nil => intro u rPath i evs res h; simp [handshake] at h
  | cons a rest ih =>
    intro u rPath i evs res h
    simp only [handshake] at h
    have hone : ∀ res1 : Loop, res1 = res →
        upstreams res1.evs = upstreams evs ++ [u] →
        (∀ evs1 u1 i1 resp, res1 = .final evs1 u1 i1 resp → u1 = u) →
        ∃ m n, 1 ≤ m ∧
          upstreams res.evs =
            upstreams evs ++ List.replicate m u ++ List.replicate n (switched u) ∧
          (0 < n → u.path = "") ∧
          ∀ evs1 u1 i1 resp, res = .final evs1 u1 i1 resp →
            u1 = if 0 < n then switched u else u := by
      intro res1 hres hups hfin
      subst hres
      refine ⟨1, 0, le_refl _, by simpa using hups, fun h => absurd h (lt_irrefl _), ?_⟩
      intro evs1 u1 i1 resp he
      simpa using hfin evs1 u1 i1 resp he
    cases hc : a.ctxErr with
    | some c =>
      cases c with
      | DeadlineExceeded =>
        simp only [hc] at h
        obtain ⟨m, n, hm, hups, hn, hfin⟩ := ih _ _ _ _ _ h
        refine ⟨m + 1, n, by omega, ?_, hn, hfin⟩
        rw [hups, upstreams_append, upstreams_attempt, List.replicate_succ]
        simp
      | Canceled =>
        simp only [hc, Option.some.injEq] at h
        refine hone _ h ?_ ?_
        · simp [Loop.evs, upstreams_append, upstreams_attempt, upstreams, Event.upstream]
        · intro evs1 u1 i1 resp he
          cases he
    | none =>
      simp only [hc] at h
      cases hr : a.result with
      | error err =>
        simp only [hr, Option.some.injEq] at h
        refine hone _ h ?_ ?_
        · simp [Loop.evs, upstreams_append, upstreams_attempt, upstreams, Event.upstream,
            jsonError]
        · intro evs1 u1 i1 resp he
          cases he
      | ok rsp =>
        simp only [hr] at h
        by_cases hsw : rsp.StatusCode = 404 ∧ u.path = ""
        · rw [if_pos hsw] at h
          obtain ⟨m, n, hm, hups, hn, hfin⟩ := ih _ _ _ _ _ h
          have hn0 : n = 0 := by
            by_contra hne
            have := hn (Nat.pos_of_ne_zero hne)
            simp at this
          subst hn0
          refine ⟨1, m, le_refl _, ?_, fun _ => hsw.2, ?_⟩
          · rw [hups, upstreams_append, upstreams_attempt]
            simp [switched]
          · intro evs1 u1 i1 resp he
            have := hfin evs1 u1 i1 resp he
            simp only [lt_irrefl, if_false] at this
            rw [if_pos (by omega)]
            exact this
        · rw [if_neg hsw] at h
          simp only [Option.some.injEq] at h
          refine hone _ h ?_ ?_
          · simp [Loop.evs, upstreams_append, upstreams_attempt]
          · intro evs1 u1 i1 resp he
            exact (Loop.final.inj he).2.1.symm

theorem changes_replicate (u : URL) : ∀ m, changes (List.replicate m u) = 0 := by
  intro m
  induction m with
  | zero => rfl
  | succ k ih =>
    cases k with
    | zero => rfl
    | succ j =>
      rw [List.replicate_succ, List.replicate_succ] at *
      simp only [changes, if_true, zero_add]
      exact ih

theorem changes_replicate_append (u v : URL) :
    ∀ m n, changes (List.replicate m u ++ List.replicate n v) ≤ 1 := by
  intro m
  induction m with
  | zero =>
    intro n
    simp [changes_replicate]
  | succ k ih =>
    intro n
    cases k with
    | zero =>
      cases n with
      | zero => simp [changes]
      | succ j =>
        have := changes_replicate v (j + 1)
        rw [List.replicate_succ] at this
        simp only [List.replicate_succ, List.replicate_zero, List.singleton_append, changes]
        rw [this]
        split <;> omega
    | succ j =>
      have := ih n
      rw [List.replicate_succ] at this
      simp only [List.replicate_succ, List.cons_append, changes, if_true, zero_add]
      simpa using this

end ClaimSwitch

section ClaimSwitchCreate

theorem upstreams_writer {l : List Event} (h : ∀ e ∈ l, e.isWriter = true) : upstreams l = [] := by
  unfold upstreams
  rw [List.filterMap_eq_nil_iff]
  intro e he
  have := h e he
  cases e <;> simp_all [Event.isWriter, Event.upstream]

/-- The upstream URLs of the attempts of a creation, and the URL of the record it
registers: the started environment's URL, then the switched URL if the path was
empty and a switch took place; the record holds the last of them. -/
theorem create_upstreams {lib : Lib} {cfg : Config} {manager : Manager} {w w1 : World}
    {r : Request} {calls : List Event} {quota : String} {caps : Caps} {env : Started}
    (hp : prepare lib manager w.num r = .ok (quota, caps, env))
    (hc : create lib cfg manager w r = some (w1, calls)) :
    ∃ m n, 1 ≤ m ∧
      upstreams calls = List.replicate m env.u ++ List.replicate n (switched env.u) ∧
      (0 < n → env.u.path = "") ∧
      ∀ id record, Event.put id record ∈ calls →
        record.URL = if 0 < n then switched env.u else env.u := by
  unfold create at hc
  simp only [serial, hp] at hc
  cases hh : handshake env.cancel env.u r.path 1 [] r.attempts with
  | none => simp [hh] at hc
  | some res =>
    obtain ⟨m, n, hm, hups, hn, hfin⟩ := handshake_upstreams _ _ _ _ _ _ _ hh
    obtain ⟨tail, ht, hshape⟩ := handshake_shape _ _ _ _ _ _ _ hh
    simp only [List.nil_append] at hshape
    simp only [upstreams, List.filterMap_nil, List.nil_append] at hups
    refine ⟨m, n, hm, ?_, hn, ?_⟩
    · rcases hshape with ⟨u1, i1, resp, rfl, -⟩ | rfl | ⟨err, rfl⟩
      · simp only [hh, Option.some.injEq, Prod.mk.injEq] at hc
        have hw := sessionID_isWriter lib cfg resp
        simp only [Loop.evs] at hups
        by_cases hid : (sessionID lib cfg resp).1 = ""
        · rw [register_of_empty hid, Prod.mk.injEq] at hc
          rw [← hc.2]
          simp only [upstreams_append, upstreams_writer hw, List.append_nil]
          simpa [upstreams, jsonError, Event.upstream] using hups
        · rw [register_of_id hid, Prod.mk.injEq] at hc
          rw [← hc.2]
          simp only [upstreams_append, upstreams_writer hw, List.append_nil]
          simpa [upstreams, Event.upstream] using hups
      · simp only [hh, Option.some.injEq, Prod.mk.injEq] at hc
        rw [← hc.2]
        exact hups
      · simp only [hh, Option.some.injEq, Prod.mk.injEq] at hc
        rw [← hc.2]
        exact hups
    · intro id record hput
      have hf : Event.put id record ∈ calls.filter Event.isPut :=
        List.mem_filter.2 ⟨hput, rfl⟩
      rcases hshape with ⟨u1, i1, resp, rfl, -⟩ | rfl | ⟨err, rfl⟩
      · simp only [hh, Option.some.injEq, Prod.mk.injEq] at hc
        have hw := sessionID_isWriter lib cfg resp
        have hu1 := hfin _ _ _ _ rfl
        by_cases hid : (sessionID lib cfg resp).1 = ""
        · rw [register_of_empty hid, Prod.mk.injEq] at hc
          rw [← hc.2] at hf
          simp [filter_attempts_nil attempt_not_put ht, filter_writer_nil writer_not_put hw,
            jsonError, Event.isPut] at hf
        · rw [register_of_id hid, Prod.mk.injEq] at hc
          rw [← hc.2] at hf
          simp [filter_attempts_nil attempt_not_put ht, filter_writer_nil writer_not_put hw,
            Event.isPut] at hf
          rw [hf.2, ← hu1]
          rfl
      · simp only [hh, Option.some.injEq, Prod.mk.injEq] at hc
        rw [← hc.2] at hf
        simp [filter_attempts_nil attempt_not_put ht, Event.isPut] at hf
      · simp only [hh, Option.some.injEq, Prod.mk.injEq] at hc
        rw [← hc.2] at hf
        simp [filter_attempts_nil attempt_not_put ht, jsonError, Event.isPut] at hf

/-- C9: in the handshake loop a 404 response received while the upstream path
is empty sets the path to `/wd/hub` and leads to another attempt, and a 404
response received while the path is not empty ends the loop as the final
response. Consequently, in every creation that returns the upstream URL
changes at most once between attempts, from the started URL to the switched
one, and a record registered after the switch holds the path `/wd/hub`. -/
theorem handshake_path_switch (cancel : Nat) (u : URL) (rPath : String) (i : Nat)
    (evs : List Event) (rsp : Response) (rest : List Attempt)
    (h404 : rsp.StatusCode = 404) :
    (u.path = "" →
      handshake cancel u rPath i evs (attemptResponse rsp :: rest) =
        handshake cancel { u with path := "/wd/hub" } (pathClean (u.path ++ rPath)) (i + 1)
          (evs ++ [.attempt u u.host (pathClean (u.path ++ rPath)) i]) rest) ∧
    (u.path ≠ "" →
      handshake cancel u rPath i evs (attemptResponse rsp :: rest) =
        some (.final (evs ++ [.attempt u u.host (pathClean (u.path ++ rPath)) i]) u i rsp)) ∧
    (∀ (lib : Lib) (cfg : Config) (manager : Manager) (w w1 : World) (r : Request)
        (calls : List Event) (quota : String) (caps : Caps) (env : Started),
      prepare lib manager w.num r = .ok (quota, caps, env) →
      create lib cfg manager w r = some (w1, calls) →
      changes (upstreams calls) ≤ 1 ∧
      ∃ m n, 1 ≤ m ∧
        upstreams calls = List.replicate m env.u ++ List.replicate n (switched env.u) ∧
        (0 < n → env.u.path = "") ∧
        ∀ id record, Event.put id record ∈ calls →
          record.URL = (if 0 < n then switched env.u else env.u) ∧
          (0 < n → record.URL.path = "/wd/hub")) := by
  refine ⟨?_, ?_, ?_⟩
  · intro hu
    simp only [handshake, attemptResponse, h404, hu, and_self, if_true]
  · intro hu
    simp only [handshake, attemptResponse, h404, hu, and_false, if_false]
  · intro lib cfg manager w w1 r calls quota caps env hp hc
    obtain ⟨m, n, hm, hups, hn, hrec⟩ := create_upstreams hp hc
    refine ⟨?_, m, n, hm, hups, hn, ?_⟩
    · rw [hups]
      exact changes_replicate_append _ _ _ _
    · intro id record hput
      have := hrec id record hput
      refine ⟨this, fun h0 => ?_⟩
      rw [this, if_pos h0]
      rfl

/-- C9, at an upstream with an empty path that answers 404 and then, under
`/wd/hub`, 200 with the session id `xyz`: the second attempt goes to the
switched URL, and the registered record holds the path `/wd/hub`. -/
theorem handshake_path_switch_witness :
    handshake 7 rootUpstream "/session" 1 []
        [attemptResponse ⟨404, "", ""⟩, attemptResponse ⟨200, "", xyzBody⟩] =
      handshake 7 hubUpstream "/session" 2 [.attempt rootUpstream "up:4444" "/session" 1]
        [attemptResponse ⟨200, "", xyzBody⟩] ∧
    create exampleLib exampleCfg (exampleManager rootUpstream) World.init switchRequest =
      some (⟨1, [("xyz", exampleSession hubUpstream)], [Timer.armed "xyz"]⟩, switchCalls) ∧
    upstreams switchCalls = [rootUpstream, hubUpstream] ∧
    changes (upstreams switchCalls) ≤ 1 :=
  ⟨(handshake_path_switch 7 rootUpstream "/session" 1 [] ⟨404, "", ""⟩
      [attemptResponse ⟨200, "", xyzBody⟩] rfl).1 rfl,
    by decide, by decide,
    ((handshake_path_switch 7 rootUpstream "/session" 1 [] ⟨404, "", ""⟩
      [attemptResponse ⟨200, "", xyzBody⟩] rfl).2.2 exampleLib exampleCfg
      (exampleManager rootUpstream) World.init
      ⟨1, [("xyz", exampleSession hubUpstream)], [Timer.armed "xyz"]⟩ switchRequest switchCalls
      "unknown" ⟨"firefox", "57.0", "1920x1080x24", false⟩ ⟨rootUpstream, "container-1", "", 7⟩
      rfl (by decide)).1⟩

end ClaimSwitchCreate

/-! ## The channel returned by `onTimeout` -/

section ClaimTimer

/-- Once the goroutine of a timer has left its `select`, no event makes the
action run again. -/
theorem run_fired_of_not_waiting :
    ∀ (evs : List TimerEvent) (t t1 : Timer), t.waiting = false → t.run evs = some t1 →
      t1.fired = t.fired ∧ t1.waiting = false := by
  intro evs
  induction evs with
  | nil =>
    intro t t1 hw h
    simp only [Timer.run, Option.some.injEq] at h
    subst h
    exact ⟨rfl, hw⟩
  | cons e rest ih =>
    intro t t1 hw h
    cases e with
    | signal =>
      simp only [Timer.run, Timer.signal] at h
      by_cases hc : t.closed = true
      · simp [hc] at h
      · simp only [hc, if_false] at h
        exact ih { t with closed := true, waiting := false } t1 rfl h
    | expire =>
      simp only [Timer.run, Timer.expire, hw, if_false] at h
      exact ih _ _ hw h

/-- A timer survives every sequence of events that closes its channel at most
once overall. -/
theorem run_of_one_signal :
    ∀ (evs : List TimerEvent) (t : Timer),
      evs.count TimerEvent.signal + (if t.closed = true then 1 else 0) ≤ 1 →
      ∃ t1, t.run evs = some t1 ∧
        (t1.closed = true ↔ (t.closed = true ∨ TimerEvent.signal ∈ evs)) := by
  intro evs
  induction evs with
  | nil =>
    intro t _
    exact ⟨t, rfl, by simp⟩
  | cons e rest ih =>
    intro t h
    cases e with
    | signal =>
      have hc : t.closed = false := by
        by_contra hc
        simp only [Bool.not_eq_false] at hc
        simp [hc] at h
      have hrest : rest.count TimerEvent.signal = 0 := by
        simp [hc] at h
        exact h
      obtain ⟨t1, h1, h2⟩ := ih { t with closed := true, waiting := false } (by simp [hrest])
      refine ⟨t1, ?_, ?_⟩
      · simp only [Timer.run, Timer.signal, hc, Bool.false_eq_true, if_false]
        exact h1
      · simp [h2]
    | expire =>
      have hcl : t.expire.closed = t.closed := by
        unfold Timer.expire
        split <;> rfl
      obtain ⟨t1, h1, h2⟩ := ih t.expire (by
        rw [hcl]
        simpa [List.count_cons] using h)
      refine ⟨t1, ?_, ?_⟩
      · simp only [Timer.run]
        exact h1
      · rw [h2, hcl]
        simp

/-- A second close of the channel of a timer is a run-time panic. -/
theorem run_of_two_signals :
    ∀ (evs : List TimerEvent) (t : Timer),
      2 ≤ evs.count TimerEvent.signal + (if t.closed = true then 1 else 0) →
      t.run evs = none := by
  intro evs
  induction evs with
  | nil =>
    intro t h
    simp only [List.count_nil, zero_add] at h
    split at h <;> omega
  | cons e rest ih =>
    intro t h
    cases e with
    | signal =>
      by_cases hc : t.closed = true
      · simp [Timer.run, Timer.signal, hc]
      · simp only [Timer.run, Timer.signal, hc, if_false]
        apply ih
        simp only [List.count_cons_self, hc, if_false, add_zero] at h
        simpa using h
    | expire =>
      have hcl : t.expire.closed = t.closed := by
        unfold Timer.expire
        split <;> rfl
      simp only [Timer.run]
      apply ih
      rw [hcl]
      simpa [List.count_cons] using h

/-- C10, amended: the channel `onTimeout` returns belongs to a fresh timer. For
every sequence of expiries and closes of that channel with at most one
close, no close fails; the action runs at most once, and it runs exactly
when the expiry comes before the close, so that a close after the action
has run changes nothing and the action never runs after a close that came
first. A sequence with a second close of the channel ends in a run-time
panic. -/
theorem onTimeout_signal_once (timers : List Timer) (session : String)
    (evs : List TimerEvent) :
    (onTimeout timers session).1[(onTimeout timers session).2]? = some (Timer.armed session) ∧
    (evs.count TimerEvent.signal ≤ 1 →
      ∃ t, (Timer.armed session).run evs = some t ∧
        t.fired ≤ 1 ∧
        (t.fired = 1 ↔ evs.head? = some .expire) ∧
        (t.closed = true ↔ TimerEvent.signal ∈ evs)) ∧
    (2 ≤ evs.count TimerEvent.signal → (Timer.armed session).run evs = none) := by
  refine ⟨by simp [onTimeout], ?_, ?_⟩
  · intro h
    obtain ⟨t, ht, hcl⟩ :=
      run_of_one_signal evs (Timer.armed session) (by simpa [Timer.armed] using h)
    have hcl2 : t.closed = true ↔ TimerEvent.signal ∈ evs := by
      rw [hcl]
      simp [Timer.armed]
    refine ⟨t, ht, ?_⟩
    cases evs with
    | nil =>
      simp only [Timer.run, Option.some.injEq] at ht
      subst ht
      exact ⟨by simp [Timer.armed], by simp [Timer.armed], hcl2⟩
    | cons e rest =>
      cases e with
      | signal =>
        simp only [Timer.run, Timer.signal, Timer.armed, Bool.false_eq_true, if_false] at ht
        obtain ⟨hf, -⟩ := run_fired_of_not_waiting rest _ t rfl ht
        simp only at hf
        exact ⟨by omega, by simp [hf], hcl2⟩
      | expire =>
        simp only [Timer.run, Timer.expire, Timer.armed, if_true] at ht
        obtain ⟨hf, -⟩ := run_fired_of_not_waiting rest _ t rfl ht
        simp only [zero_add] at hf
        exact ⟨by omega, by simp [hf], hcl2⟩
  · intro h
    exact run_of_two_signals evs (Timer.armed session) (by simpa [Timer.armed] using h)

/-- C10, amended, at a timer that expires and whose channel is closed afterwards:
the close succeeds and the action has run once; closed before it expires, the
action does not run. -/
theorem onTimeout_signal_once_witness :
    (Timer.armed "abc").run [.expire, .signal] = some ⟨"abc", true, false, 1⟩ ∧
    (Timer.armed "abc").run [.signal, .expire] = some ⟨"abc", true, false, 0⟩ ∧
    ∃ t, (Timer.armed "abc").run [.expire, .signal] = some t ∧ t.fired ≤ 1 :=
  ⟨by decide, by decide,
    ((onTimeout_signal_once [] "abc" [.expire, .signal]).2.1 (by decide)).imp
      fun _ ht => ⟨ht.1, ht.2.1⟩⟩

/-- C10, as stated, fails: closing the channel returned by `onTimeout` a second
time is a run-time panic, in the timer and in the `close` of the director. -/
theorem onTimeout_second_signal_panics :
    (Timer.armed "abc").run [.signal, .signal] = none ∧
    (Timer.armed "abc").run [.expire, .signal, .signal] = none ∧
    closeToken (onTimeout [] "abc").1 (onTimeout [] "abc").2 =
      some [⟨"abc", true, false, 0⟩] ∧
    closeToken [⟨"abc", true, false, 0⟩] (onTimeout [] "abc").2 = none := by
  refine ⟨by decide, by decide, by decide, by decide⟩

end ClaimTimer

end Selenoid
